import Mathlib

set_option maxHeartbeats 1000000

/-!
Shallow embedding of `src/dkulib/parallelizer/parallelizer.py`
(`DataFrameParallelizer`: apply a user function to a pandas DataFrame with
parallelization, error logging and progress tracking).

Modelling conventions:
* A pandas row dictionary is an ordered association list from column name to
  cell value; cell values are modelled as strings (the engine casts all
  generated columns to `str`, and input dtypes play no role in the verified
  properties).
* A Python exception is a `PyError` record carrying `str(error)`, the class
  qualified name, the originating module (when `inspect.getmodule` finds one)
  and `str(error.args)`.  The dynamic class check of
  `except self.exceptions_to_catch + (BatchError,)` is modelled by comparing
  qualified names.
* Raising is modelled with `Except PyError`; a raising call propagates as
  `Except.error`.
* The `ThreadPoolExecutor` / `as_completed` loop of `run` yields unit results
  in completion order, which the code does not constrain.  The completion
  order is made explicit: `run` takes a schedule `sched : List Nat`, the list
  of unit indices in the order their futures complete.  A real execution
  corresponds to a schedule that is a permutation of `List.range` over the
  number of submitted units.
* Python truthiness of the `row` / `batch` arguments (`if row and batch`,
  `if row`, `... if row else ...`) is modelled by `truthyRow` / `truthyBatch`:
  `None` and an empty dict/list are both falsy.
* `str`-level details that the claims do not depend on (exact formatting of
  `str(list_of_errors)`, pandas dtype restoration, the tqdm progress bar,
  logging output, forwarded `**function_kwargs`) are not modelled.
-/

/-- A row of the DataFrame, as produced by `Series.to_dict()`: an ordered
association list from column name to cell value. -/
abbrev Row := List (String × String)

/-- A batch: an ordered list of rows. -/
abbrev Batch := List Row

/-- Python `d[c]` read access on a row dictionary (first binding wins; absent
keys are conflated with the empty-string sentinel, which is all the verified
claims observe). -/
def getCol : Row → String → String
  | [], _ => ""
  | (c, v) :: rest, c2 => if c = c2 then v else getCol rest c2

/-- Python `d[c] = v` on a row dictionary: update in place when the key
exists, append otherwise (insertion order is preserved, as for dicts). -/
def setCol : Row → String → String → Row
  | [], c, v => [(c, v)]
  | (c1, v1) :: rest, c, v =>
    if c1 = c then (c, v) :: rest else (c1, v1) :: setCol rest c v

/-- A DataFrame: ordered column names plus the list of row dictionaries. -/
structure Table where
  cols : List String
  rows : Batch
deriving DecidableEq

/-- Enum class `ErrorHandling` from the source. -/
inductive ErrorHandling where
  | LOG
  | FAIL
deriving DecidableEq

/-- A Python exception value: `str(error)`, `type(error).__qualname__`,
the module found by `inspect.getmodule(error)` and `str(error.args)`. -/
structure PyError where
  message : String
  qualname : String
  modname : Option String
  args : String
deriving DecidableEq

/-- The `error_type` string built in the handler of
`_apply_function_and_parse_response`: the qualified class name, prefixed by
the originating module when determinable. -/
def errorTypeOf (e : PyError) : String :=
  match e.modname with
  | some m => m ++ "." ++ e.qualname
  | none => e.qualname

/-- Abstraction of Python `str` on a list of strings (the element quoting is
irrelevant to the claims; only non-emptiness of the result is used). -/
def pyStrList (l : List String) : String :=
  "[" ++ String.intercalate ", " l ++ "]"

/-- The `BatchError(str(errors))` exception raised in the batch branch when
a parsed row carries a non-empty error message. `BatchError` is declared in
the parallelizer module, so `inspect.getmodule` resolves it. -/
def mkBatchError (errs : List String) : PyError :=
  { message := pyStrList errs
    qualname := "BatchError"
    modname := some "dkulib.parallelizer.parallelizer"
    args := "(" ++ pyStrList errs ++ ",)" }

/-- The `ValueError` raised when both `row` and `batch` are (truthy and)
provided. -/
def bothArgsError : PyError :=
  { message := "Please use either row or batch as arguments, but not both"
    qualname := "ValueError"
    modname := none
    args := "(message,)" }

/-- The `TypeError` hit when neither `row` nor `batch` is truthy and `batch`
is `None`: initializing the output columns iterates over `None`. -/
def outputNoneError : PyError :=
  { message := "NoneType object is not iterable"
    qualname := "TypeError"
    modname := none
    args := "(message,)" }

/-- The `TypeError` hit when the batch branch calls a `None`
`batch_response_parser` (unreachable through the validated constructor). -/
def parseFnNoneError : PyError :=
  { message := "NoneType object is not callable"
    qualname := "TypeError"
    modname := none
    args := "(message,)" }

/-- The `ZeroDivisionError` of `math.ceil(df_num_rows / self.batch_size)`
when `batch_size` is zero in batch mode. -/
def zeroDivisionError : PyError :=
  { message := "division by zero"
    qualname := "ZeroDivisionError"
    modname := none
    args := "(message,)" }

/-- Modelling artifact: default result for a schedule index that does not
denote a submitted future (a real completion order never produces one). -/
def scheduleError : PyError :=
  { message := "invalid schedule index"
    qualname := "IndexError"
    modname := none
    args := "(message,)" }

/-- The namedtuple `OutputColumnNameTuple` with the four generated output
column names, in field order. -/
structure OutputColumnNameTuple where
  response : String
  error_message : String
  error_type : String
  error_raw : String
deriving DecidableEq

/-- Iteration over the namedtuple, in field order. -/
def ocnList (ocn : OutputColumnNameTuple) : List String :=
  [ocn.response, ocn.error_message, ocn.error_type, ocn.error_raw]

/-- The four generated names are pairwise distinct. -/
def OcnDistinct (ocn : OutputColumnNameTuple) : Prop :=
  ocn.response ≠ ocn.error_message ∧ ocn.response ≠ ocn.error_type ∧
  ocn.response ≠ ocn.error_raw ∧ ocn.error_message ≠ ocn.error_type ∧
  ocn.error_message ≠ ocn.error_raw ∧ ocn.error_type ≠ ocn.error_raw

/-- Candidate names tried by the unique-name generator: the prefixed base
name followed by a growing suffix. -/
def genCandidate (pre name : String) (k : Nat) : String :=
  pre ++ "_" ++ name ++ String.mk (List.replicate k '_')

/-- Fuelled search for the first candidate that does not collide.  The fuel
passed by `generate_unique` is provably sufficient. -/
def genUniqueAux (pre name : String) (existing : List String) : Nat → Nat → String
  | 0, k => genCandidate pre name k
  | fuel + 1, k =>
    if genCandidate pre name k ∈ existing then
      genUniqueAux pre name existing fuel (k + 1)
    else genCandidate pre name k

/-- Modelled from the spec: `generate_unique` lives in
`dkulib.io_utils.plugin_io_utils`, which is not part of the sources under
`src/`.  Per the spec, the name is generated deterministically by prefixing
the base name and then appending/growing a suffix until no collision with the
existing names occurs. -/
def generate_unique (name : String) (existing_names : List String) (pre : String) : String :=
  genUniqueAux pre name existing_names (existing_names.length + 1) 0

/-- `DataFrameParallelizer._get_unique_output_column_names`: one
`generate_unique` call per namedtuple field, each against the existing
DataFrame column names with the configured prefix. -/
def getUniqueOutputColumnNames (pre : String) (existing : List String) : OutputColumnNameTuple :=
  { response := generate_unique "response" existing pre
    error_message := generate_unique "error_message" existing pre
    error_type := generate_unique "error_type" existing pre
    error_raw := generate_unique "error_raw" existing pre }

/-- The engine's configuration, mirroring the attributes set by
`DataFrameParallelizer.__init__`.  The user function receives either a row
or a batch; `batch_response_parse_fn` models the `batch_response_parser`
attribute. -/
structure DataFrameParallelizer where
  function : Sum Row Batch → Except PyError String
  error_handling : ErrorHandling
  exceptions_to_catch : List String
  parallel_workers : Nat
  batch_support : Bool
  batch_size : Nat
  batch_response_parse_fn : Option (Batch → String → OutputColumnNameTuple → Batch)
  output_column_pre : String
  verbose : Bool

/-- `DataFrameParallelizer.__init__`, with its two construction-time
validations (raising `ValueError` before any row is processed).
`output_column_pre` models the `output_column_prefix` attribute. -/
def mkParallelizer (function : Sum Row Batch → Except PyError String)
    (error_handling : ErrorHandling) (exceptions_to_catch : List String)
    (parallel_workers : Nat) (batch_support : Bool) (batch_size : Nat)
    (parse_fn : Option (Batch → String → OutputColumnNameTuple → Batch))
    (pre : String) (verbose : Bool) : Except PyError DataFrameParallelizer :=
  if error_handling = ErrorHandling.LOG ∧ exceptions_to_catch = [] then
    Except.error
      { message := "Please set at least one exception in exceptions_to_catch"
        qualname := "ValueError", modname := none, args := "(message,)" }
  else if batch_support = true ∧ parse_fn.isNone = true then
    Except.error
      { message := "Please provide a valid batch_response_parser function"
        qualname := "ValueError", modname := none, args := "(message,)" }
  else
    Except.ok
      { function := function, error_handling := error_handling
        exceptions_to_catch := exceptions_to_catch
        parallel_workers := parallel_workers, batch_support := batch_support
        batch_size := batch_size, batch_response_parse_fn := parse_fn
        output_column_pre := pre, verbose := verbose }

/-- The dynamic matching of `except self.exceptions_to_catch + (BatchError,)`:
an exception is caught when its class is configured or when it is the internal
`BatchError`. -/
def isCaught (p : DataFrameParallelizer) (e : PyError) : Bool :=
  decide (e.qualname ∈ p.exceptions_to_catch) || e.qualname == "BatchError"

/-- Python truthiness of the `row` keyword argument (`None` and `{}` falsy). -/
def truthyRow : Option Row → Bool
  | none => false
  | some r => !r.isEmpty

/-- Python truthiness of the `batch` keyword argument (`None`, `[]` falsy). -/
def truthyBatch : Option Batch → Bool
  | none => false
  | some b => !b.isEmpty

/-- The loop initializing every output column of the (deep-copied) unit to
the empty-string sentinel, in namedtuple field order. -/
def initOutputCols (r : Row) (ocn : OutputColumnNameTuple) : Row :=
  (ocnList ocn).foldl (fun acc c => setCol acc c "") r

/-- The error branch of the handler: set `error_message`, `error_type` and
`error_raw` on a row, in source order. -/
def populateError (r : Row) (ocn : OutputColumnNameTuple) (e : PyError) : Row :=
  setCol (setCol (setCol r ocn.error_message e.message)
      ocn.error_type (errorTypeOf e))
    ocn.error_raw e.args

/-- The value returned by `_apply_function_and_parse_response`: a single row
dictionary in row mode, a list of row dictionaries in batch mode. -/
inductive UnitOut where
  | rowOut (r : Row)
  | batchOut (b : Batch)
deriving DecidableEq

/-- `DataFrameParallelizer._apply_function_and_parse_response`.
Branch by branch:
* `if row and batch: raise ValueError(...)` (truthiness of both arguments);
* `output = deepcopy(row) if row else deepcopy(batch)` and the output-column
  initialization loop — iterating a `None` output raises a `TypeError`;
* the `try` body: call the user function; in the batch branch, call the
  batch response parser and raise `BatchError` when any parsed row carries a
  truthy `error_message`;
* the `except` clause over the configured exception classes plus
  `BatchError`: re-raise in FAIL mode, otherwise populate the error columns
  of every row of the current `output` value (the initialized copy when the
  user function raised, the parsed rows when `BatchError` was raised). -/
def applyFunctionAndParseResponse (p : DataFrameParallelizer)
    (ocn : OutputColumnNameTuple) (row : Option Row) (batch : Option Batch) :
    Except PyError UnitOut :=
  if truthyRow row && truthyBatch batch then
    Except.error bothArgsError
  else if truthyRow row then
    let r := row.getD []
    let output := initOutputCols r ocn
    match p.function (Sum.inl r) with
    | Except.ok resp => Except.ok (UnitOut.rowOut (setCol output ocn.response resp))
    | Except.error e =>
      if isCaught p e then
        if p.error_handling = ErrorHandling.FAIL then Except.error e
        else Except.ok (UnitOut.rowOut (populateError output ocn e))
      else Except.error e
  else
    match batch with
    | none => Except.error outputNoneError
    | some b =>
      let initOut := b.map (fun r => initOutputCols r ocn)
      let attempt : Except (PyError × Batch) Batch :=
        match p.function (Sum.inr b) with
        | Except.error e => Except.error (e, initOut)
        | Except.ok resp =>
          match p.batch_response_parse_fn with
          | none => Except.error (parseFnNoneError, initOut)
          | some parse =>
            let parsed := parse b resp ocn
            let errs := (parsed.map (fun r => getCol r ocn.error_message)).filter
              (fun m => m != "")
            if errs.isEmpty then Except.ok parsed
            else Except.error (mkBatchError errs, parsed)
      match attempt with
      | Except.ok out => Except.ok (UnitOut.batchOut out)
      | Except.error (e, out) =>
        if isCaught p e then
          if p.error_handling = ErrorHandling.FAIL then Except.error e
          else Except.ok (UnitOut.batchOut (out.map (fun r => populateError r ocn e)))
        else Except.error e

/-- Fuelled version of `more_itertools.chunked` (the fuel passed by `chunked`
is always sufficient, see `chunkedAux_fuel`). -/
def chunkedAux {α : Type _} (n : Nat) : Nat → List α → List (List α)
  | _, [] => []
  | 0, x :: xs => [x :: xs]
  | fuel + 1, x :: xs => (x :: xs.take (n - 1)) :: chunkedAux n fuel (xs.drop (n - 1))

/-- `more_itertools.chunked`: split a list into consecutive chunks of size
`n` (the last chunk may be smaller), for `n ≥ 1`. -/
def chunked {α : Type _} (n : Nat) (xs : List α) : List (List α) :=
  chunkedAux n xs.length xs

/-- The submitted work units of `run`, in submission order: one per chunk in
batch mode, one per row otherwise, each as the (`row`, `batch`) keyword
arguments of `_apply_function_and_parse_response`. -/
def mkUnits (p : DataFrameParallelizer) (rows : Batch) : List (Option Row × Option Batch) :=
  if p.batch_support then (chunked p.batch_size rows).map (fun b => (none, some b))
  else rows.map (fun r => (some r, none))

/-- The call performed on a unit by the wrapped user function. -/
def unitCall (p : DataFrameParallelizer) : Option Row × Option Batch → Except PyError String
  | (some r, _) => p.function (Sum.inl r)
  | (none, some b) => p.function (Sum.inr b)
  | (none, none) => Except.ok ""

/-- Row-mode unit results are plain row dictionaries. -/
def asRow : UnitOut → Row
  | UnitOut.rowOut r => r
  | UnitOut.batchOut _ => []

/-- Batch-mode unit results are lists of row dictionaries. -/
def asBatch : UnitOut → Batch
  | UnitOut.batchOut b => b
  | UnitOut.rowOut _ => []

/-- Unwrap a unit result known to be successful. -/
def extractOk : Except PyError UnitOut → UnitOut
  | Except.ok u => u
  | Except.error _ => UnitOut.rowOut []

/-- The `for future in as_completed(futures): results.append(future.result())`
loop: walk the futures in completion order (`sched`), appending each result;
the first `future.result()` that re-raises aborts the run with that
exception. -/
def collectResults (ur : List (Except PyError UnitOut)) : List Nat → Except PyError (List UnitOut)
  | [] => Except.ok []
  | i :: rest =>
    match ur.getD i (Except.error scheduleError) with
    | Except.error e => Except.error e
    | Except.ok u =>
      match collectResults ur rest with
      | Except.error e => Except.error e
      | Except.ok us => Except.ok (u :: us)

/-- `pd.DataFrame.from_records(results).reindex(columns=...)` at row level:
keep exactly the target columns, in target order (missing keys take the
sentinel value). -/
def reindexRow (cols : List String) (r : Row) : Row :=
  cols.map (fun c => (c, getCol r c))

/-- `output_df.drop(labels=c, axis=1)`: remove one column everywhere. -/
def dropColumnTable (c : String) (t : Table) : Table :=
  { cols := t.cols.filter (fun x => x != c)
    rows := t.rows.map (fun r => r.filter (fun kv => kv.1 != c)) }

/-- `DataFrameParallelizer._convert_results_to_df`: build the output table
over the input columns followed by the four generated columns, then drop
`error_raw` unless verbose, and drop all error columns in FAIL mode (dtype
restoration by `astype` is not observable at the string level). -/
def convertResultsToDf (p : DataFrameParallelizer) (df : Table) (results : Batch)
    (ocn : OutputColumnNameTuple) : Table :=
  let targetCols := df.cols ++ ocnList ocn
  let t1 : Table := { cols := targetCols, rows := results.map (reindexRow targetCols) }
  let t2 := if p.verbose then t1 else dropColumnTable ocn.error_raw t1
  if p.error_handling = ErrorHandling.FAIL then
    dropColumnTable ocn.error_message
      (dropColumnTable ocn.error_type (dropColumnTable ocn.error_raw t2))
  else t2

/-- The parallel section of `run`: submit every unit, then gather the unit
results in completion order `sched`. -/
def runResults (p : DataFrameParallelizer) (ocn : OutputColumnNameTuple) (rows : Batch)
    (sched : List Nat) : Except PyError (List UnitOut) :=
  collectResults
    ((mkUnits p rows).map (fun u => applyFunctionAndParseResponse p ocn u.1 u.2)) sched

/-- `DataFrameParallelizer.run`: compute the output column names, submit all
units, gather results in completion order, flatten them in batch mode, and
assemble the output table.  `sched` is the completion order of the futures
(see the header); `math.ceil(df_num_rows / batch_size)` raises
`ZeroDivisionError` for a zero batch size in batch mode. -/
def run (p : DataFrameParallelizer) (df : Table) (sched : List Nat) : Except PyError Table :=
  if p.batch_support = true ∧ p.batch_size = 0 then Except.error zeroDivisionError
  else
    let ocn := getUniqueOutputColumnNames p.output_column_pre df.cols
    match runResults p ocn df.rows sched with
    | Except.error e => Except.error e
    | Except.ok rs =>
      let results : Batch := if p.batch_support then (rs.map asBatch).flatten else rs.map asRow
      Except.ok (convertResultsToDf p df results ocn)

/-- Per-row post-processing performed by `_convert_results_to_df` (reindex to
the target columns, then the verbosity/FAIL column drops), used to state
row-level facts about the assembled table. -/
def postRow (p : DataFrameParallelizer) (cols : List String)
    (ocn : OutputColumnNameTuple) (r : Row) : Row :=
  let r1 := reindexRow (cols ++ ocnList ocn) r
  let r2 := if p.verbose then r1 else r1.filter (fun kv => kv.1 != ocn.error_raw)
  if p.error_handling = ErrorHandling.FAIL then
    ((r2.filter (fun kv => kv.1 != ocn.error_raw)).filter
        (fun kv => kv.1 != ocn.error_type)).filter
      (fun kv => kv.1 != ocn.error_message)
  else r2

/-- An output row recording a failure: sentinel response, populated
`error_message` and `error_type`. -/
def failedRowP (ocn : OutputColumnNameTuple) (r : Row) : Bool :=
  getCol r ocn.response == "" && getCol r ocn.error_message != "" &&
    getCol r ocn.error_type != ""

/-- An output row recording a success: populated response, empty error
fields. -/
def succRowP (ocn : OutputColumnNameTuple) (r : Row) : Bool :=
  getCol r ocn.response != "" && getCol r ocn.error_message == "" &&
    getCol r ocn.error_type == ""

/-- Decidable equality of modelled call outcomes (used to evaluate the
engine on concrete inputs). -/
instance {ε α : Type _} [DecidableEq ε] [DecidableEq α] : DecidableEq (Except ε α) := fun a b =>
  match a, b with
  | Except.ok x, Except.ok y =>
    if h : x = y then Decidable.isTrue (by rw [h])
    else Decidable.isFalse (fun hh => h (by injection hh))
  | Except.ok _, Except.error _ => Decidable.isFalse (fun hh => Except.noConfusion hh)
  | Except.error _, Except.ok _ => Decidable.isFalse (fun hh => Except.noConfusion hh)
  | Except.error x, Except.error y =>
    if h : x = y then Decidable.isTrue (by rw [h])
    else Decidable.isFalse (fun hh => h (by injection hh))

/-! ### Concrete configurations used to instantiate the verified statements -/

/-- A caught `ValueError` raised by the example user function. -/
def exampleValueError : PyError :=
  { message := "invalid id", qualname := "ValueError", modname := none
    args := "(invalid id,)" }

/-- Row-mode example user function: fails with a `ValueError` on the row
whose id is 2, returns a non-empty response otherwise. -/
def exampleRowFunction : Sum Row Batch → Except PyError String
  | Sum.inl r =>
    if getCol r "id" = "2" then Except.error exampleValueError
    else Except.ok ("ok-" ++ getCol r "id")
  | Sum.inr _ => Except.ok ""

/-- Batch-mode example user function: always succeeds. -/
def exampleBatchFunction : Sum Row Batch → Except PyError String
  | Sum.inl _ => Except.ok "resp"
  | Sum.inr _ => Except.ok "resp"

/-- A length-preserving batch response parser: copy the raw response into
each row's response column. -/
def exampleParse (b : Batch) (resp : String) (ocn : OutputColumnNameTuple) : Batch :=
  b.map (fun r => setCol r ocn.response resp)

/-- A batch response parser marking every row with a row-level error. -/
def exampleParseRowErr (b : Batch) (_resp : String) (ocn : OutputColumnNameTuple) : Batch :=
  b.map (fun r => setCol r ocn.error_message "row failed")

/-- The 3-row example table. -/
def exampleDf : Table :=
  { cols := ["id"], rows := [[("id", "1")], [("id", "2")], [("id", "3")]] }

/-- A 2-row example batch. -/
def exampleB2 : Batch := [[("id", "1")], [("id", "2")]]

/-- Row-mode, log-mode configuration over the example row function. -/
def examplePRow : DataFrameParallelizer :=
  { function := exampleRowFunction, error_handling := ErrorHandling.LOG
    exceptions_to_catch := ["ValueError"], parallel_workers := 4
    batch_support := false, batch_size := 10, batch_response_parse_fn := none
    output_column_pre := "output", verbose := false }

/-- Batch-mode (size 2), log-mode configuration with the copying parser. -/
def examplePBatch : DataFrameParallelizer :=
  { function := exampleBatchFunction, error_handling := ErrorHandling.LOG
    exceptions_to_catch := ["ValueError"], parallel_workers := 4
    batch_support := true, batch_size := 2
    batch_response_parse_fn := some exampleParse
    output_column_pre := "output", verbose := false }

/-- Batch-mode configuration whose parser marks row-level errors. -/
def examplePBatchErr : DataFrameParallelizer :=
  { function := exampleBatchFunction, error_handling := ErrorHandling.LOG
    exceptions_to_catch := ["ValueError"], parallel_workers := 4
    batch_support := true, batch_size := 2
    batch_response_parse_fn := some exampleParseRowErr
    output_column_pre := "output", verbose := false }

/-- Fail-mode, row-mode configuration over the example row function. -/
def examplePFail : DataFrameParallelizer :=
  { function := exampleRowFunction, error_handling := ErrorHandling.FAIL
    exceptions_to_catch := ["ValueError"], parallel_workers := 4
    batch_support := false, batch_size := 10, batch_response_parse_fn := none
    output_column_pre := "output", verbose := false }

/-- The output column names generated for the example table. -/
def exampleOcn : OutputColumnNameTuple := getUniqueOutputColumnNames "output" ["id"]

/-- The batch-mode output table under completion order `[0, 1]`. -/
def exampleBatchOut01 : Table := (run examplePBatch exampleDf [0, 1]).toOption.getD ⟨[], []⟩

/-- The batch-mode output table under completion order `[1, 0]`. -/
def exampleBatchOut10 : Table := (run examplePBatch exampleDf [1, 0]).toOption.getD ⟨[], []⟩

/-- The row-mode output table under the submission-order schedule. -/
def exampleRowOut012 : Table := (run examplePRow exampleDf [0, 1, 2]).toOption.getD ⟨[], []⟩

/-- The row-mode output table under a permuted completion order. -/
def exampleRowOut201 : Table := (run examplePRow exampleDf [2, 0, 1]).toOption.getD ⟨[], []⟩

/-! ### Helper lemmas: row dictionary operations -/

theorem getCol_setCol_self (r : Row) (c v : String) : getCol (setCol r c v) c = v := by
  induction r with
  | nil => simp [setCol, getCol]
  | cons kv rest ih =>
    by_cases h : kv.1 = c
    · simp [setCol, h, getCol]
    · simp [setCol, h, getCol, ih]

theorem getCol_setCol_ne (r : Row) {c c2 : String} (h : ¬(c = c2)) (v : String) :
    getCol (setCol r c v) c2 = getCol r c2 := by
  induction r with
  | nil => simp [setCol, getCol, h]
  | cons kv rest ih =>
    by_cases h1 : kv.1 = c
    · simp [setCol, h1, getCol, h]
    · simp [setCol, h1, getCol, ih]

theorem getCol_filter_ne (r : Row) {c c2 : String} (h : ¬(c2 = c)) :
    getCol (r.filter (fun kv => kv.1 != c)) c2 = getCol r c2 := by
  induction r with
  | nil => rfl
  | cons kv rest ih =>
    obtain ⟨a, v⟩ := kv
    by_cases h1 : a = c
    · subst h1
      have h2 : ¬(a = c2) := fun hh => h (by rw [← hh])
      simp [List.filter_cons, getCol, h2, ih]
    · by_cases h2 : a = c2
      · simp [List.filter_cons, getCol, h1, h2, h]
      · simp [List.filter_cons, getCol, h1, h2, ih]

theorem getCol_reindexRow_mem {cols : List String} {c : String} (hmem : c ∈ cols) (r : Row) :
    getCol (reindexRow cols r) c = getCol r c := by
  induction cols with
  | nil => simp at hmem
  | cons c1 rest ih =>
    by_cases h : c1 = c
    · simp [reindexRow, List.map, getCol, h]
    · rcases List.mem_cons.mp hmem with h1 | h1
      · exact absurd h1.symm h
      · simp [reindexRow, List.map, getCol, h]
        exact ih h1

theorem initOutputCols_eq (r : Row) (ocn : OutputColumnNameTuple) :
    initOutputCols r ocn =
      setCol (setCol (setCol (setCol r ocn.response "") ocn.error_message "")
        ocn.error_type "") ocn.error_raw "" := rfl

theorem getCol_initOutputCols_mem (r : Row) (ocn : OutputColumnNameTuple) {x : String}
    (hx : x ∈ ocnList ocn) : getCol (initOutputCols r ocn) x = "" := by
  rw [initOutputCols_eq]
  by_cases h1 : ocn.error_raw = x
  · rw [← h1, getCol_setCol_self]
  · rw [getCol_setCol_ne _ h1]
    by_cases h2 : ocn.error_type = x
    · rw [← h2, getCol_setCol_self]
    · rw [getCol_setCol_ne _ h2]
      by_cases h3 : ocn.error_message = x
      · rw [← h3, getCol_setCol_self]
      · rw [getCol_setCol_ne _ h3]
        by_cases h4 : ocn.response = x
        · rw [← h4, getCol_setCol_self]
        · rw [getCol_setCol_ne _ h4]
          simp [ocnList] at hx
          rcases hx with h | h | h | h
          · exact absurd h.symm h4
          · exact absurd h.symm h3
          · exact absurd h.symm h2
          · exact absurd h.symm h1

theorem getCol_initOutputCols_not_mem (r : Row) (ocn : OutputColumnNameTuple) {x : String}
    (hx : ¬(x ∈ ocnList ocn)) : getCol (initOutputCols r ocn) x = getCol r x := by
  simp [ocnList] at hx
  rw [initOutputCols_eq]
  rw [getCol_setCol_ne _ (fun h => hx.2.2.2 h.symm)]
  rw [getCol_setCol_ne _ (fun h => hx.2.2.1 h.symm)]
  rw [getCol_setCol_ne _ (fun h => hx.2.1 h.symm)]
  rw [getCol_setCol_ne _ (fun h => hx.1 h.symm)]

theorem getCol_populateError_message (r : Row) (ocn : OutputColumnNameTuple) (e : PyError)
    (h1 : ¬(ocn.error_type = ocn.error_message)) (h2 : ¬(ocn.error_raw = ocn.error_message)) :
    getCol (populateError r ocn e) ocn.error_message = e.message := by
  rw [populateError, getCol_setCol_ne _ h2, getCol_setCol_ne _ h1, getCol_setCol_self]

theorem getCol_populateError_type (r : Row) (ocn : OutputColumnNameTuple) (e : PyError)
    (h1 : ¬(ocn.error_raw = ocn.error_type)) :
    getCol (populateError r ocn e) ocn.error_type = errorTypeOf e := by
  rw [populateError, getCol_setCol_ne _ h1, getCol_setCol_self]

theorem getCol_populateError_raw (r : Row) (ocn : OutputColumnNameTuple) (e : PyError) :
    getCol (populateError r ocn e) ocn.error_raw = e.args := by
  rw [populateError, getCol_setCol_self]

theorem getCol_populateError_other (r : Row) (ocn : OutputColumnNameTuple) (e : PyError)
    {x : String} (h1 : ¬(ocn.error_message = x)) (h2 : ¬(ocn.error_type = x))
    (h3 : ¬(ocn.error_raw = x)) :
    getCol (populateError r ocn e) x = getCol r x := by
  rw [populateError, getCol_setCol_ne _ h3, getCol_setCol_ne _ h2, getCol_setCol_ne _ h1]

/-! ### Helper lemmas: strings -/

theorem string_ne_empty_of_data {s : String} (h : s.data ≠ []) : s ≠ "" := by
  intro hs
  exact h (by rw [hs])

theorem append_dot_ne_empty (a b : String) : a ++ "." ++ b ≠ "" := by
  apply string_ne_empty_of_data
  have hdot : ("." : String).data = ['.'] := rfl
  simp [String.data_append, hdot]

theorem errorTypeOf_ne_empty {e : PyError} (h : e.qualname ≠ "") : errorTypeOf e ≠ "" := by
  cases hm : e.modname with
  | none => simpa [errorTypeOf, hm] using h
  | some m => simpa [errorTypeOf, hm] using append_dot_ne_empty m e.qualname

theorem pyStrList_ne_empty (l : List String) : pyStrList l ≠ "" := by
  apply string_ne_empty_of_data
  have hb : ("[" : String).data = ['['] := rfl
  simp [pyStrList, String.data_append, hb]

theorem mkBatchError_message_ne_empty (errs : List String) :
    (mkBatchError errs).message ≠ "" := pyStrList_ne_empty errs

theorem mkBatchError_args_ne_empty (errs : List String) : (mkBatchError errs).args ≠ "" := by
  apply string_ne_empty_of_data
  have hb : ("(" : String).data = ['('] := rfl
  simp [mkBatchError, String.data_append, hb]

/-! ### Helper lemmas: the unique output column names -/

theorem string_mk_length (l : List Char) : (String.mk l).length = l.length := rfl

theorem genCandidate_length (pre name : String) (k : Nat) :
    (genCandidate pre name k).length = pre.length + 1 + name.length + k := by
  have h1 : ("_" : String).length = 1 := rfl
  simp [genCandidate, String.length_append, h1, string_mk_length]

theorem genCandidate_injective (pre name : String) :
    Function.Injective (genCandidate pre name) := by
  intro k j h
  have hl := congrArg String.length h
  rw [genCandidate_length, genCandidate_length] at hl
  omega

theorem exists_fresh_candidate (pre name : String) (existing : List String) :
    ∃ j, j < existing.length + 1 ∧ genCandidate pre name j ∉ existing := by
  by_contra hc
  push_neg at hc
  have hsub : ((List.range (existing.length + 1)).map (genCandidate pre name)) ⊆ existing := by
    intro s hs
    simp only [List.mem_map, List.mem_range] at hs
    obtain ⟨j, hj, rfl⟩ := hs
    exact hc j hj
  have hnd : ((List.range (existing.length + 1)).map (genCandidate pre name)).Nodup :=
    (List.nodup_range _).map (genCandidate_injective pre name)
  have h1 : existing.length + 1 ≤ existing.length := by
    calc existing.length + 1
        = ((List.range (existing.length + 1)).map (genCandidate pre name)).toFinset.card := by
          rw [List.toFinset_card_of_nodup hnd]; simp
      _ ≤ existing.toFinset.card := by
          apply Finset.card_le_card
          intro x hx
          rw [List.mem_toFinset] at hx ⊢
          exact hsub hx
      _ ≤ existing.length := List.toFinset_card_le existing
  omega

theorem genUniqueAux_fresh (pre name : String) (existing : List String) :
    ∀ (fuel k : Nat), (∃ j, j < fuel ∧ genCandidate pre name (k + j) ∉ existing) →
      genUniqueAux pre name existing fuel k ∉ existing := by
  intro fuel
  induction fuel with
  | zero =>
    intro k h
    obtain ⟨j, hj, _⟩ := h
    omega
  | succ n ih =>
    intro k h
    obtain ⟨j, hj, hfree⟩ := h
    rw [genUniqueAux]
    by_cases hmem : genCandidate pre name k ∈ existing
    · simp only [hmem, if_true]
      apply ih
      cases j with
      | zero =>
        exfalso
        apply hfree
        simpa using hmem
      | succ j2 =>
        refine ⟨j2, by omega, ?_⟩
        have harith : k + 1 + j2 = k + (j2 + 1) := by omega
        rw [harith]
        exact hfree
    · rw [if_neg hmem]
      exact hmem

theorem generate_unique_not_mem (name : String) (existing : List String) (pre : String) :
    generate_unique name existing pre ∉ existing := by
  apply genUniqueAux_fresh
  obtain ⟨j, hj, hfree⟩ := exists_fresh_candidate pre name existing
  exact ⟨j, hj, by simpa using hfree⟩

theorem genUniqueAux_isCandidate (pre name : String) (existing : List String) :
    ∀ (fuel k : Nat), ∃ j, genUniqueAux pre name existing fuel k = genCandidate pre name j := by
  intro fuel
  induction fuel with
  | zero => intro k; exact ⟨k, rfl⟩
  | succ n ih =>
    intro k
    rw [genUniqueAux]
    by_cases hmem : genCandidate pre name k ∈ existing
    · simp only [hmem, if_true]; exact ih (k + 1)
    · simp only [hmem, if_false]; exact ⟨k, rfl⟩

theorem generate_unique_isCandidate (name : String) (existing : List String) (pre : String) :
    ∃ j, generate_unique name existing pre = genCandidate pre name j :=
  genUniqueAux_isCandidate pre name existing (existing.length + 1) 0

theorem data_genCandidate (pre name : String) (k : Nat) :
    (genCandidate pre name k).data = pre.data ++ '_' :: (name.data ++ List.replicate k '_') := by
  have h1 : ("_" : String).data = ['_'] := rfl
  have h2 : ∀ l : List Char, (String.mk l).data = l := fun _ => rfl
  simp [genCandidate, String.data_append, h1, h2]

theorem genCandidate_ne (pre : String) {n1 n2 : String} {p0 t1 t2 : List Char} {c1 c2 : Char}
    (h1 : n1.data = p0 ++ c1 :: t1) (h2 : n2.data = p0 ++ c2 :: t2) (hc : c1 ≠ c2)
    (k j : Nat) : genCandidate pre n1 k ≠ genCandidate pre n2 j := by
  intro h
  have hd := congrArg String.data h
  rw [data_genCandidate, data_genCandidate, h1, h2] at hd
  have hd2 := List.append_cancel_left hd
  simp only [List.cons.injEq, true_and, List.append_assoc, List.cons_append] at hd2
  have hd3 := List.append_cancel_left hd2
  injection hd3 with hh _
  exact hc hh

theorem getUniqueOutputColumnNames_distinct (pre : String) (existing : List String) :
    OcnDistinct (getUniqueOutputColumnNames pre existing) := by
  obtain ⟨k1, e1⟩ := generate_unique_isCandidate "response" existing pre
  obtain ⟨k2, e2⟩ := generate_unique_isCandidate "error_message" existing pre
  obtain ⟨k3, e3⟩ := generate_unique_isCandidate "error_type" existing pre
  obtain ⟨k4, e4⟩ := generate_unique_isCandidate "error_raw" existing pre
  have d1 : ("response" : String).data = [] ++ 'r' :: ['e', 's', 'p', 'o', 'n', 's', 'e'] := by
    decide
  have d2 : ("error_message" : String).data =
      [] ++ 'e' :: ['r', 'r', 'o', 'r', '_', 'm', 'e', 's', 's', 'a', 'g', 'e'] := by decide
  have d3 : ("error_type" : String).data = [] ++ 'e' :: ['r', 'r', 'o', 'r', '_', 't', 'y', 'p', 'e'] := by
    decide
  have d4 : ("error_raw" : String).data = [] ++ 'e' :: ['r', 'r', 'o', 'r', '_', 'r', 'a', 'w'] := by
    decide
  have d2b : ("error_message" : String).data =
      ['e', 'r', 'r', 'o', 'r', '_'] ++ 'm' :: ['e', 's', 's', 'a', 'g', 'e'] := by decide
  have d3b : ("error_type" : String).data = ['e', 'r', 'r', 'o', 'r', '_'] ++ 't' :: ['y', 'p', 'e'] := by
    decide
  have d4b : ("error_raw" : String).data = ['e', 'r', 'r', 'o', 'r', '_'] ++ 'r' :: ['a', 'w'] := by
    decide
  refine ⟨?_, ?_, ?_, ?_, ?_, ?_⟩ <;>
    simp only [getUniqueOutputColumnNames, e1, e2, e3, e4]
  · exact genCandidate_ne pre d1 d2 (by decide) k1 k2
  · exact genCandidate_ne pre d1 d3 (by decide) k1 k3
  · exact genCandidate_ne pre d1 d4 (by decide) k1 k4
  · exact genCandidate_ne pre d2b d3b (by decide) k2 k3
  · exact genCandidate_ne pre d2b d4b (by decide) k2 k4
  · exact genCandidate_ne pre d3b d4b (by decide) k3 k4

theorem getUniqueOutputColumnNames_fresh (pre : String) (existing : List String) :
    (getUniqueOutputColumnNames pre existing).response ∉ existing ∧
    (getUniqueOutputColumnNames pre existing).error_message ∉ existing ∧
    (getUniqueOutputColumnNames pre existing).error_type ∉ existing ∧
    (getUniqueOutputColumnNames pre existing).error_raw ∉ existing :=
  ⟨generate_unique_not_mem _ _ _, generate_unique_not_mem _ _ _,
    generate_unique_not_mem _ _ _, generate_unique_not_mem _ _ _⟩

/-! ### Helper lemmas: chunking -/

theorem chunkedAux_fuel {α : Type _} (n : Nat) :
    ∀ (fuel1 : Nat) (xs : List α) (fuel2 : Nat), xs.length ≤ fuel1 → xs.length ≤ fuel2 →
      chunkedAux n fuel1 xs = chunkedAux n fuel2 xs := by
  intro fuel1
  induction fuel1 with
  | zero =>
    intro xs fuel2 h1 h2
    have hx : xs = [] := List.length_eq_zero.mp (by omega)
    subst hx
    cases fuel2 <;> rfl
  | succ m ih =>
    intro xs fuel2 h1 h2
    cases xs with
    | nil => cases fuel2 <;> rfl
    | cons x rest =>
      cases fuel2 with
      | zero => simp at h2
      | succ m2 =>
        show (x :: rest.take (n - 1)) :: chunkedAux n m (rest.drop (n - 1)) =
          (x :: rest.take (n - 1)) :: chunkedAux n m2 (rest.drop (n - 1))
        congr 1
        apply ih
        · have := List.length_drop (n - 1) rest
          simp at h1 ⊢
          omega
        · have := List.length_drop (n - 1) rest
          simp at h2 ⊢
          omega

theorem chunked_cons {α : Type _} (n : Nat) (x : α) (xs : List α) :
    chunked n (x :: xs) = (x :: xs.take (n - 1)) :: chunked n (xs.drop (n - 1)) := by
  unfold chunked
  show (x :: xs.take (n - 1)) :: chunkedAux n xs.length (xs.drop (n - 1)) =
    (x :: xs.take (n - 1)) :: chunkedAux n (xs.drop (n - 1)).length (xs.drop (n - 1))
  congr 1
  apply chunkedAux_fuel
  · have := List.length_drop (n - 1) xs
    omega
  · exact Nat.le_refl _

theorem chunkedAux_flatten {α : Type _} (n : Nat) (_hn : 0 < n) :
    ∀ (fuel : Nat) (xs : List α), xs.length ≤ fuel → (chunkedAux n fuel xs).flatten = xs := by
  intro fuel
  induction fuel with
  | zero =>
    intro xs h
    have hx : xs = [] := List.length_eq_zero.mp (by omega)
    subst hx
    rfl
  | succ m ih =>
    intro xs h
    cases xs with
    | nil => rfl
    | cons x rest =>
      show ((x :: rest.take (n - 1)) :: chunkedAux n m (rest.drop (n - 1))).flatten = x :: rest
      rw [List.flatten_cons]
      rw [ih _ (by have := List.length_drop (n - 1) rest; simp at h ⊢; omega)]
      simp [List.cons_append, List.take_append_drop]

theorem chunked_flatten {α : Type _} (n : Nat) (hn : 0 < n) (xs : List α) :
    (chunked n xs).flatten = xs :=
  chunkedAux_flatten n hn xs.length xs (Nat.le_refl _)

/-! ### Helper lemmas: gathering results in completion order -/

theorem collectResults_ok_forall2 {ur : List (Except PyError UnitOut)} :
    ∀ {sched : List Nat} {rs : List UnitOut}, collectResults ur sched = Except.ok rs →
      List.Forall₂ (fun i u => ur.getD i (Except.error scheduleError) = Except.ok u) sched rs := by
  intro sched
  induction sched with
  | nil =>
    intro rs h
    simp only [collectResults] at h
    injection h with h2
    subst h2
    exact List.Forall₂.nil
  | cons i rest ih =>
    intro rs h
    unfold collectResults at h
    cases hu : ur.getD i (Except.error scheduleError) with
    | error e => rw [hu] at h; exact absurd h (by simp)
    | ok u =>
      rw [hu] at h
      cases hr : collectResults ur rest with
      | error e => rw [hr] at h; exact absurd h (by simp)
      | ok us =>
        rw [hr] at h
        injection h with h2
        subst h2
        exact List.Forall₂.cons hu (ih hr)

theorem collectResults_ok_of_forall {ur : List (Except PyError UnitOut)} :
    ∀ sched : List Nat,
      (∀ i ∈ sched, ∃ u, ur.getD i (Except.error scheduleError) = Except.ok u) →
      ∃ rs, collectResults ur sched = Except.ok rs := by
  intro sched
  induction sched with
  | nil => intro _; exact ⟨[], rfl⟩
  | cons i rest ih =>
    intro hall
    obtain ⟨u, hu⟩ := hall i (List.mem_cons_self i rest)
    obtain ⟨us, hus⟩ := ih (fun j hj => hall j (List.mem_cons_of_mem _ hj))
    refine ⟨u :: us, ?_⟩
    unfold collectResults
    rw [hu, hus]

theorem collectResults_error_of_mem {ur : List (Except PyError UnitOut)} {i : Nat} {e : PyError} :
    ∀ sched : List Nat, i ∈ sched → ur.getD i (Except.error scheduleError) = Except.error e →
      ∃ e2, collectResults ur sched = Except.error e2 := by
  intro sched
  induction sched with
  | nil => intro h; simp at h
  | cons j rest ih =>
    intro hmem hfail
    unfold collectResults
    cases hu : ur.getD j (Except.error scheduleError) with
    | error e2 => exact ⟨e2, rfl⟩
    | ok u =>
      have hine : i ∈ rest := by
        rcases List.mem_cons.mp hmem with h1 | h1
        · subst h1
          rw [hu] at hfail
          exact absurd hfail (by simp)
        · exact h1
      obtain ⟨e2, h2⟩ := ih hine hfail
      rw [h2]
      exact ⟨e2, rfl⟩

theorem collectResults_ok_map {ur : List (Except PyError UnitOut)} :
    ∀ {sched : List Nat} {rs : List UnitOut}, collectResults ur sched = Except.ok rs →
      rs = sched.map (fun i => extractOk (ur.getD i (Except.error scheduleError))) := by
  intro sched
  induction sched with
  | nil =>
    intro rs h
    simp only [collectResults] at h
    injection h with h2
    subst h2
    rfl
  | cons i rest ih =>
    intro rs h
    unfold collectResults at h
    cases hu : ur.getD i (Except.error scheduleError) with
    | error e => rw [hu] at h; exact absurd h (by simp)
    | ok u =>
      rw [hu] at h
      cases hr : collectResults ur rest with
      | error e => rw [hr] at h; exact absurd h (by simp)
      | ok us =>
        rw [hr] at h
        injection h with h2
        subst h2
        simp only [List.map_cons]
        rw [hu]
        rw [← ih hr]
        rfl

/-! ### Helper lemmas: generic list facts -/

theorem forall2_map_eq {α β γ : Type _} {R : α → β → Prop} {f : α → γ} {g : β → γ} :
    ∀ {l1 : List α} {l2 : List β}, List.Forall₂ R l1 l2 →
      (∀ a b, a ∈ l1 → R a b → f a = g b) → l1.map f = l2.map g := by
  intro l1 l2 h
  induction h with
  | nil => intro _; rfl
  | cons hab htail ih =>
    intro hfg
    simp only [List.map_cons]
    rw [hfg _ _ (List.mem_cons_self _ _) hab,
      ih (fun a b ha hr => hfg a b (List.mem_cons_of_mem _ ha) hr)]

theorem map_getD_range {α : Type _} (d : α) :
    ∀ l : List α, (List.range l.length).map (fun i => l.getD i d) = l := by
  intro l
  induction l with
  | nil => rfl
  | cons x xs ih =>
    rw [show (x :: xs).length = xs.length + 1 from rfl, List.range_succ_eq_map]
    simp only [List.map_cons, List.getD_cons_zero, List.map_map, Function.comp_def,
      Nat.succ_eq_add_one, List.getD_cons_succ]
    rw [ih]

theorem countP_eq_sum_map {α : Type _} (q : α → Bool) :
    ∀ l : List α, l.countP q = (l.map (fun a => if q a then 1 else 0)).sum := by
  intro l
  induction l with
  | nil => rfl
  | cons x xs ih =>
    rw [List.countP_cons]
    by_cases hx : q x <;> simp [hx, ih, List.sum_cons, Nat.add_comm]

theorem sum_range_ones (i : Nat) :
    ∀ m : Nat, m ≤ i → ((List.range m).map (fun j => if j = i then 0 else 1)).sum = m := by
  intro m
  induction m with
  | zero => intro _; rfl
  | succ k ih =>
    intro h
    rw [List.range_succ, List.map_append, List.sum_append, ih (by omega)]
    have hk : ¬(k = i) := by omega
    simp [hk]

theorem sum_range_indicator_eq (i : Nat) :
    ∀ n : Nat, i < n → ((List.range n).map (fun j => if j = i then 1 else 0)).sum = 1 := by
  intro n
  induction n with
  | zero => intro h; omega
  | succ m ih =>
    intro h
    rw [List.range_succ, List.map_append, List.sum_append]
    by_cases hi : i = m
    · subst hi
      have hz : ((List.range i).map (fun j => if j = i then 1 else 0)).sum = 0 := by
        apply List.sum_eq_zero
        intro x hx
        simp only [List.mem_map, List.mem_range] at hx
        obtain ⟨j, hj, rfl⟩ := hx
        simp [Nat.ne_of_lt hj]
      simp [hz]
    · have hi2 : i < m := by omega
      have hm : ¬(m = i) := fun hh => hi hh.symm
      simp [ih hi2, hm]

theorem sum_range_indicator_ne (i : Nat) :
    ∀ n : Nat, i < n → ((List.range n).map (fun j => if j = i then 0 else 1)).sum = n - 1 := by
  intro n
  induction n with
  | zero => intro h; omega
  | succ m ih =>
    intro h
    rw [List.range_succ, List.map_append, List.sum_append]
    by_cases hi : i = m
    · subst hi
      rw [sum_range_ones i i (Nat.le_refl i)]
      simp
    · have hi2 : i < m := by omega
      have hm : ¬(m = i) := fun hh => hi hh.symm
      rw [ih hi2]
      simp only [hm, if_false, List.map_cons, List.map_nil, List.sum_cons, List.sum_nil]
      omega

/-! ### Helper lemmas: list access -/

theorem getD_map_lt {α β : Type _} (f : α → β) :
    ∀ (l : List α) {j : Nat}, j < l.length → ∀ (d : α) (d2 : β),
      (l.map f).getD j d2 = f (l.getD j d) := by
  intro l
  induction l with
  | nil => intro j hj; simp at hj
  | cons x xs ih =>
    intro j hj d d2
    cases j with
    | zero => simp [List.getD_cons_zero]
    | succ j2 =>
      simp only [List.map_cons, List.getD_cons_succ]
      exact ih (by simpa using Nat.lt_of_succ_lt_succ hj) d d2

theorem getD_ge {α : Type _} :
    ∀ (l : List α) {j : Nat}, l.length ≤ j → ∀ d : α, l.getD j d = d := by
  intro l
  induction l with
  | nil => intro j _ d; cases j <;> rfl
  | cons x xs ih =>
    intro j hj d
    cases j with
    | zero => simp at hj
    | succ j2 =>
      rw [List.getD_cons_succ]
      exact ih (by simpa using Nat.le_of_succ_le_succ hj) d

/-! ### Helper lemmas: the worker invocation wrapper -/

theorem truthyRow_some {r : Row} (hr : r ≠ []) : truthyRow (some r) = true := by
  simp [truthyRow, hr]

theorem isCaught_mkBatchError (p : DataFrameParallelizer) (errs : List String) :
    isCaught p (mkBatchError errs) = true := by
  simp [isCaught, mkBatchError]

theorem apply_row_ok (p : DataFrameParallelizer) (ocn : OutputColumnNameTuple) {r : Row}
    (hr : r ≠ []) {resp : String} (hf : p.function (Sum.inl r) = Except.ok resp) :
    applyFunctionAndParseResponse p ocn (some r) none =
      Except.ok (UnitOut.rowOut (setCol (initOutputCols r ocn) ocn.response resp)) := by
  unfold applyFunctionAndParseResponse
  rw [truthyRow_some hr]
  simp [truthyBatch, hf]

theorem apply_row_err_log (p : DataFrameParallelizer) (ocn : OutputColumnNameTuple) {r : Row}
    (hr : r ≠ []) {e : PyError} (hf : p.function (Sum.inl r) = Except.error e)
    (hc : isCaught p e = true) (hm : p.error_handling = ErrorHandling.LOG) :
    applyFunctionAndParseResponse p ocn (some r) none =
      Except.ok (UnitOut.rowOut (populateError (initOutputCols r ocn) ocn e)) := by
  unfold applyFunctionAndParseResponse
  rw [truthyRow_some hr]
  simp [truthyBatch, hf, hc, hm]

theorem apply_row_err_raise (p : DataFrameParallelizer) (ocn : OutputColumnNameTuple) {r : Row}
    (hr : r ≠ []) {e : PyError} (hf : p.function (Sum.inl r) = Except.error e)
    (h : isCaught p e = false ∨ p.error_handling = ErrorHandling.FAIL) :
    applyFunctionAndParseResponse p ocn (some r) none = Except.error e := by
  unfold applyFunctionAndParseResponse
  rw [truthyRow_some hr]
  rcases h with h | h
  · simp [truthyBatch, hf, h]
  · by_cases hc : isCaught p e <;> simp [truthyBatch, hf, h, hc]

theorem apply_batch_fn_err_log (p : DataFrameParallelizer) (ocn : OutputColumnNameTuple)
    (b : Batch) {e : PyError} (hf : p.function (Sum.inr b) = Except.error e)
    (hc : isCaught p e = true) (hm : p.error_handling = ErrorHandling.LOG) :
    applyFunctionAndParseResponse p ocn none (some b) =
      Except.ok (UnitOut.batchOut ((b.map (fun r => initOutputCols r ocn)).map
        (fun r => populateError r ocn e))) := by
  unfold applyFunctionAndParseResponse
  simp [truthyRow, truthyBatch, hf, hc, hm]

theorem apply_batch_fn_err_raise (p : DataFrameParallelizer) (ocn : OutputColumnNameTuple)
    (b : Batch) {e : PyError} (hf : p.function (Sum.inr b) = Except.error e)
    (h : isCaught p e = false ∨ p.error_handling = ErrorHandling.FAIL) :
    applyFunctionAndParseResponse p ocn none (some b) = Except.error e := by
  unfold applyFunctionAndParseResponse
  rcases h with h | h
  · simp [truthyRow, truthyBatch, hf, h]
  · by_cases hc : isCaught p e <;> simp [truthyRow, truthyBatch, hf, h, hc]

theorem apply_batch_parsed_ok (p : DataFrameParallelizer) (ocn : OutputColumnNameTuple)
    (b : Batch) {parse : Batch → String → OutputColumnNameTuple → Batch}
    (hp : p.batch_response_parse_fn = some parse) {resp : String}
    (hf : p.function (Sum.inr b) = Except.ok resp)
    (hnoerr : ((parse b resp ocn).map (fun r => getCol r ocn.error_message)).filter
      (fun m => m != "") = []) :
    applyFunctionAndParseResponse p ocn none (some b) =
      Except.ok (UnitOut.batchOut (parse b resp ocn)) := by
  unfold applyFunctionAndParseResponse
  simp [truthyRow, truthyBatch, hf, hp, hnoerr]

theorem apply_batch_parsed_err_log (p : DataFrameParallelizer) (ocn : OutputColumnNameTuple)
    (b : Batch) {parse : Batch → String → OutputColumnNameTuple → Batch}
    (hp : p.batch_response_parse_fn = some parse) {resp : String}
    (hf : p.function (Sum.inr b) = Except.ok resp)
    (herrs : ((parse b resp ocn).map (fun r => getCol r ocn.error_message)).filter
      (fun m => m != "") ≠ [])
    (hm : p.error_handling = ErrorHandling.LOG) :
    applyFunctionAndParseResponse p ocn none (some b) =
      Except.ok (UnitOut.batchOut ((parse b resp ocn).map (fun r => populateError r ocn
        (mkBatchError (((parse b resp ocn).map (fun r => getCol r ocn.error_message)).filter
          (fun m => m != "")))))) := by
  unfold applyFunctionAndParseResponse
  have hie : (((parse b resp ocn).map (fun r => getCol r ocn.error_message)).filter
      (fun m => m != "")).isEmpty = false := by
    simpa [List.isEmpty_iff] using herrs
  simp [truthyRow, truthyBatch, hf, hp, hie, isCaught_mkBatchError, hm]

theorem apply_batch_cases (p : DataFrameParallelizer) (ocn : OutputColumnNameTuple) (b : Batch) :
    (∃ e, applyFunctionAndParseResponse p ocn none (some b) = Except.error e) ∨
    (∃ e, applyFunctionAndParseResponse p ocn none (some b) =
      Except.ok (UnitOut.batchOut ((b.map (fun r => initOutputCols r ocn)).map
        (fun r => populateError r ocn e)))) ∨
    (∃ parse resp, p.batch_response_parse_fn = some parse ∧
      (applyFunctionAndParseResponse p ocn none (some b) =
          Except.ok (UnitOut.batchOut (parse b resp ocn)) ∨
        ∃ e, applyFunctionAndParseResponse p ocn none (some b) =
          Except.ok (UnitOut.batchOut ((parse b resp ocn).map
            (fun r => populateError r ocn e))))) := by
  cases hf : p.function (Sum.inr b) with
  | error e =>
    by_cases hc : isCaught p e
    · by_cases hm : p.error_handling = ErrorHandling.FAIL
      · exact Or.inl ⟨e, apply_batch_fn_err_raise p ocn b hf (Or.inr hm)⟩
      · have hm2 : p.error_handling = ErrorHandling.LOG := by
          cases hmode : p.error_handling
          · rfl
          · exact absurd hmode hm
        exact Or.inr (Or.inl ⟨e, apply_batch_fn_err_log p ocn b hf hc hm2⟩)
    · exact Or.inl ⟨e, apply_batch_fn_err_raise p ocn b hf
        (Or.inl (Bool.not_eq_true _ ▸ Bool.eq_false_iff.mpr hc))⟩
  | ok resp =>
    cases hp : p.batch_response_parse_fn with
    | none =>
      by_cases hc : isCaught p parseFnNoneError
      · by_cases hm : p.error_handling = ErrorHandling.FAIL
        · refine Or.inl ⟨parseFnNoneError, ?_⟩
          unfold applyFunctionAndParseResponse
          simp [truthyRow, truthyBatch, hf, hp, hc, hm]
        · have hm2 : p.error_handling = ErrorHandling.LOG := by
            cases hmode : p.error_handling
            · rfl
            · exact absurd hmode hm
          refine Or.inr (Or.inl ⟨parseFnNoneError, ?_⟩)
          unfold applyFunctionAndParseResponse
          simp [truthyRow, truthyBatch, hf, hp, hc, hm2]
      · refine Or.inl ⟨parseFnNoneError, ?_⟩
        unfold applyFunctionAndParseResponse
        simp [truthyRow, truthyBatch, hf, hp, hc]
    | some parse =>
      by_cases herr : ((parse b resp ocn).map (fun r => getCol r ocn.error_message)).filter
          (fun m => m != "") = []
      · exact Or.inr (Or.inr ⟨parse, resp, rfl,
          Or.inl (apply_batch_parsed_ok p ocn b hp hf herr)⟩)
      · by_cases hm : p.error_handling = ErrorHandling.FAIL
        · refine Or.inl ⟨mkBatchError (((parse b resp ocn).map
            (fun r => getCol r ocn.error_message)).filter (fun m => m != "")), ?_⟩
          unfold applyFunctionAndParseResponse
          have hie : (((parse b resp ocn).map (fun r => getCol r ocn.error_message)).filter
              (fun m => m != "")).isEmpty = false := by
            simpa [List.isEmpty_iff] using herr
          simp [truthyRow, truthyBatch, hf, hp, hie, isCaught_mkBatchError, hm]
        · have hm2 : p.error_handling = ErrorHandling.LOG := by
            cases hmode : p.error_handling
            · rfl
            · exact absurd hmode hm
          exact Or.inr (Or.inr ⟨parse, resp, rfl,
            Or.inr ⟨_, apply_batch_parsed_err_log p ocn b hp hf herr hm2⟩⟩)

theorem apply_batch_ok_length (p : DataFrameParallelizer) (ocn : OutputColumnNameTuple)
    {b : Batch} {u : UnitOut}
    (hlen : ∀ parse, p.batch_response_parse_fn = some parse →
      ∀ resp, (parse b resp ocn).length = b.length)
    (h : applyFunctionAndParseResponse p ocn none (some b) = Except.ok u) :
    (asBatch u).length = b.length := by
  rcases apply_batch_cases p ocn b with ⟨e, he⟩ | ⟨e, he⟩ | ⟨parse, resp, hp, he | ⟨e, he⟩⟩
  · rw [he] at h; exact absurd h (by simp)
  · rw [he] at h
    injection h with h2
    subst h2
    simp [asBatch]
  · rw [he] at h
    injection h with h2
    subst h2
    simp [asBatch, hlen parse hp resp]
  · rw [he] at h
    injection h with h2
    subst h2
    simp [asBatch, hlen parse hp resp]

/-! ### Helper lemmas: result assembly -/

theorem getCol_postRow_log (p : DataFrameParallelizer) (cols : List String)
    (ocn : OutputColumnNameTuple) (r : Row) (hm : p.error_handling = ErrorHandling.LOG)
    {x : String} (hx : x ∈ cols ++ ocnList ocn) (hxraw : ¬(x = ocn.error_raw)) :
    getCol (postRow p cols ocn r) x = getCol r x := by
  unfold postRow
  rw [hm]
  rw [if_neg (by decide : ¬(ErrorHandling.LOG = ErrorHandling.FAIL))]
  by_cases hv : p.verbose
  · simp only [hv, if_true]
    exact getCol_reindexRow_mem hx r
  · simp only [hv, Bool.false_eq_true, if_false]
    rw [getCol_filter_ne _ hxraw]
    exact getCol_reindexRow_mem hx r

theorem getCol_postRow_inputcol (p : DataFrameParallelizer) (cols : List String)
    (ocn : OutputColumnNameTuple) (r : Row) {x : String} (hx : x ∈ cols)
    (hno : ¬(x ∈ ocnList ocn)) :
    getCol (postRow p cols ocn r) x = getCol r x := by
  have hmem : x ∈ cols ++ ocnList ocn := List.mem_append_left _ hx
  simp only [ocnList, List.mem_cons, List.mem_singleton, not_or] at hno
  obtain ⟨h1, h2, h3, h4⟩ := hno
  have h4b : ¬(x = ocn.error_raw) := by simpa using h4
  unfold postRow
  by_cases hv : p.verbose <;> by_cases hm : p.error_handling = ErrorHandling.FAIL <;>
    simp only [hv, hm, if_true, Bool.false_eq_true, if_false, reduceIte]
  · rw [getCol_filter_ne _ h2, getCol_filter_ne _ h3, getCol_filter_ne _ h4b]
    exact getCol_reindexRow_mem hmem r
  · exact getCol_reindexRow_mem hmem r
  · rw [getCol_filter_ne _ h2, getCol_filter_ne _ h3, getCol_filter_ne _ h4b,
      getCol_filter_ne _ h4b]
    exact getCol_reindexRow_mem hmem r
  · rw [getCol_filter_ne _ h4b]
    exact getCol_reindexRow_mem hmem r

theorem convertResultsToDf_rows (p : DataFrameParallelizer) (df : Table) (results : Batch)
    (ocn : OutputColumnNameTuple) :
    (convertResultsToDf p df results ocn).rows = results.map (postRow p df.cols ocn) := by
  unfold convertResultsToDf postRow dropColumnTable
  by_cases hv : p.verbose <;> by_cases hm : p.error_handling = ErrorHandling.FAIL <;>
    simp [hv, hm, List.map_map, Function.comp_def]

theorem convertResultsToDf_cols_indep (p : DataFrameParallelizer) (df : Table)
    (r1 r2 : Batch) (ocn : OutputColumnNameTuple) :
    (convertResultsToDf p df r1 ocn).cols = (convertResultsToDf p df r2 ocn).cols := by
  unfold convertResultsToDf dropColumnTable
  by_cases hv : p.verbose <;> by_cases hm : p.error_handling = ErrorHandling.FAIL <;>
    simp [hv, hm]

/-! ### Helper lemmas: the run pipeline -/

theorem run_row_eq (p : DataFrameParallelizer) (df : Table) (sched : List Nat)
    (hbs : p.batch_support = false) :
    run p df sched =
      (match runResults p (getUniqueOutputColumnNames p.output_column_pre df.cols)
          df.rows sched with
      | Except.error e => Except.error e
      | Except.ok rs => Except.ok (convertResultsToDf p df (rs.map asRow)
          (getUniqueOutputColumnNames p.output_column_pre df.cols))) := by
  unfold run
  rw [if_neg (by simp [hbs])]
  cases hr : runResults p (getUniqueOutputColumnNames p.output_column_pre df.cols)
      df.rows sched <;>
    simp [hr, hbs]

theorem run_batch_eq (p : DataFrameParallelizer) (df : Table) (sched : List Nat)
    (hbs : p.batch_support = true) (hsz : p.batch_size ≠ 0) :
    run p df sched =
      (match runResults p (getUniqueOutputColumnNames p.output_column_pre df.cols)
          df.rows sched with
      | Except.error e => Except.error e
      | Except.ok rs => Except.ok (convertResultsToDf p df ((rs.map asBatch).flatten)
          (getUniqueOutputColumnNames p.output_column_pre df.cols))) := by
  unfold run
  rw [if_neg (by simp [hsz])]
  cases hr : runResults p (getUniqueOutputColumnNames p.output_column_pre df.cols)
      df.rows sched <;>
    simp [hr, hbs]

theorem mkUnits_length_row (p : DataFrameParallelizer) (rows : Batch)
    (hbs : p.batch_support = false) : (mkUnits p rows).length = rows.length := by
  simp [mkUnits, hbs]

theorem mkUnits_length_batch (p : DataFrameParallelizer) (rows : Batch)
    (hbs : p.batch_support = true) :
    (mkUnits p rows).length = (chunked p.batch_size rows).length := by
  simp [mkUnits, hbs]

theorem unitResults_row_getD (p : DataFrameParallelizer) (ocn : OutputColumnNameTuple)
    (rows : Batch) (hbs : p.batch_support = false) {j : Nat} (hj : j < rows.length) :
    ((mkUnits p rows).map (fun u => applyFunctionAndParseResponse p ocn u.1 u.2)).getD j
        (Except.error scheduleError) =
      applyFunctionAndParseResponse p ocn (some (rows.getD j [])) none := by
  unfold mkUnits
  rw [if_neg (by simp [hbs]), List.map_map]
  rw [getD_map_lt _ rows hj [] _]
  rfl

theorem unitResults_batch_getD (p : DataFrameParallelizer) (ocn : OutputColumnNameTuple)
    (rows : Batch) (hbs : p.batch_support = true) {j : Nat}
    (hj : j < (chunked p.batch_size rows).length) :
    ((mkUnits p rows).map (fun u => applyFunctionAndParseResponse p ocn u.1 u.2)).getD j
        (Except.error scheduleError) =
      applyFunctionAndParseResponse p ocn none (some ((chunked p.batch_size rows).getD j [])) := by
  unfold mkUnits
  rw [if_pos (by simp [hbs]), List.map_map]
  rw [getD_map_lt _ (chunked p.batch_size rows) hj [] _]
  rfl

/-! ### The claims -/

/-- C5: constructing the engine with error handling mode log and an empty
set of exceptions to catch raises a configuration `ValueError` before any
row is processed (the constructor never sees the table), and constructing
with batch mode enabled and no batch response parser raises a configuration
`ValueError` likewise. -/
theorem claim_C5 :
    (∀ fn workers bsup bsz pfn pre vb,
      mkParallelizer fn ErrorHandling.LOG [] workers bsup bsz pfn pre vb =
        Except.error
          { message := "Please set at least one exception in exceptions_to_catch"
            qualname := "ValueError", modname := none, args := "(message,)" }) ∧
    (∀ fn mode exc workers bsz pre vb,
      ∃ e, mkParallelizer fn mode exc workers true bsz none pre vb = Except.error e ∧
        e.qualname = "ValueError") := by
  constructor
  · intro fn workers bsup bsz pfn pre vb
    unfold mkParallelizer
    rw [if_pos ⟨rfl, rfl⟩]
  · intro fn mode exc workers bsz pre vb
    unfold mkParallelizer
    by_cases h1 : mode = ErrorHandling.LOG ∧ exc = []
    · rw [if_pos h1]
      exact ⟨_, rfl, rfl⟩
    · rw [if_neg h1, if_pos ⟨rfl, rfl⟩]
      exact ⟨_, rfl, rfl⟩

/-- C8: each of the four generated output column names is distinct from
every pre-existing input column name and from the other generated names
(the unique-name generator is modelled from the spec, as its source is not
under `src/`). -/
theorem claim_C8 (pre : String) (existing : List String) :
    ((getUniqueOutputColumnNames pre existing).response ∉ existing ∧
     (getUniqueOutputColumnNames pre existing).error_message ∉ existing ∧
     (getUniqueOutputColumnNames pre existing).error_type ∉ existing ∧
     (getUniqueOutputColumnNames pre existing).error_raw ∉ existing) ∧
    OcnDistinct (getUniqueOutputColumnNames pre existing) :=
  ⟨getUniqueOutputColumnNames_fresh pre existing,
    getUniqueOutputColumnNames_distinct pre existing⟩

/-- C6 counterexample: providing neither `row` nor `batch` is not reported
as the configuration `ValueError` of the both-arguments check; the wrapper
instead fails with a `TypeError` raised while initializing the output
columns of the `None` unit. -/
theorem claim_C6_counterexample :
    applyFunctionAndParseResponse examplePRow exampleOcn none none =
      Except.error outputNoneError ∧
    outputNoneError.qualname = "TypeError" ∧
    bothArgsError.qualname = "ValueError" ∧
    outputNoneError ≠ bothArgsError := by decide

/-- C6 amended: providing both a truthy row and a truthy batch raises the
immediate configuration `ValueError`; providing neither is not caught by
that check and instead fails with a `TypeError` when the output columns of
the unit are initialized; an empty (falsy) row counts as not provided and
fails the same way. -/
theorem claim_C6_amended (p : DataFrameParallelizer) (ocn : OutputColumnNameTuple)
    (row : Option Row) (batch : Option Batch)
    (hrow : truthyRow row = true) (hbatch : truthyBatch batch = true) :
    applyFunctionAndParseResponse p ocn row batch = Except.error bothArgsError ∧
    applyFunctionAndParseResponse p ocn none none = Except.error outputNoneError ∧
    applyFunctionAndParseResponse p ocn (some []) none = Except.error outputNoneError := by
  refine ⟨?_, rfl, rfl⟩
  unfold applyFunctionAndParseResponse
  rw [hrow, hbatch]
  rfl

/-- C6 amended, witness at a concrete invocation. -/
theorem claim_C6_witness :
    applyFunctionAndParseResponse examplePRow exampleOcn (some [("id", "1")])
      (some [[("id", "1")]]) = Except.error bothArgsError :=
  (claim_C6_amended examplePRow exampleOcn (some [("id", "1")]) (some [[("id", "1")]])
    (by decide) (by decide)).1

/-- C7: in batch mode with log error handling, if any row of the list
returned by the batch response parser carries a non-empty error message,
the whole batch invocation is treated as a single failed outcome: every row
of the unit result gets populated error_message, error_type and error_raw
fields. -/
theorem claim_C7 (p : DataFrameParallelizer) (cols : List String) (b : Batch)
    (parse : Batch → String → OutputColumnNameTuple → Batch) (resp : String)
    (hm : p.error_handling = ErrorHandling.LOG)
    (hp : p.batch_response_parse_fn = some parse)
    (hf : p.function (Sum.inr b) = Except.ok resp)
    (herr : ∃ r ∈ parse b resp (getUniqueOutputColumnNames p.output_column_pre cols),
      getCol r (getUniqueOutputColumnNames p.output_column_pre cols).error_message ≠ "") :
    ∃ out,
      applyFunctionAndParseResponse p (getUniqueOutputColumnNames p.output_column_pre cols)
        none (some b) = Except.ok (UnitOut.batchOut out) ∧
      out.length =
        (parse b resp (getUniqueOutputColumnNames p.output_column_pre cols)).length ∧
      ∀ r ∈ out,
        getCol r (getUniqueOutputColumnNames p.output_column_pre cols).error_message ≠ "" ∧
        getCol r (getUniqueOutputColumnNames p.output_column_pre cols).error_type ≠ "" ∧
        getCol r (getUniqueOutputColumnNames p.output_column_pre cols).error_raw ≠ "" := by
  obtain ⟨d1, d2, d3, d4, d5, d6⟩ :=
    getUniqueOutputColumnNames_distinct p.output_column_pre cols
  obtain ⟨r0, hr0mem, hr0⟩ := herr
  have hfr : getCol r0 (getUniqueOutputColumnNames p.output_column_pre cols).error_message ∈
      (parse b resp (getUniqueOutputColumnNames p.output_column_pre cols)).map
        (fun r => getCol r (getUniqueOutputColumnNames p.output_column_pre cols).error_message) :=
    List.mem_map_of_mem _ hr0mem
  have hpred : (getCol r0 (getUniqueOutputColumnNames p.output_column_pre cols).error_message
      != "") = true := by simpa [bne_iff_ne] using hr0
  have herrs : ((parse b resp (getUniqueOutputColumnNames p.output_column_pre cols)).map
      (fun r => getCol r (getUniqueOutputColumnNames p.output_column_pre cols).error_message)).filter
      (fun m => m != "") ≠ [] :=
    List.ne_nil_of_mem (List.mem_filter.mpr ⟨hfr, hpred⟩)
  have happ := apply_batch_parsed_err_log p
    (getUniqueOutputColumnNames p.output_column_pre cols) b hp hf herrs hm
  refine ⟨_, happ, by simp, ?_⟩
  intro r hrmem
  rw [List.mem_map] at hrmem
  obtain ⟨r1, hr1, rfl⟩ := hrmem
  refine ⟨?_, ?_, ?_⟩
  · rw [getCol_populateError_message _ _ _ (fun hh => d4 hh.symm) (fun hh => d5 hh.symm)]
    exact mkBatchError_message_ne_empty _
  · rw [getCol_populateError_type _ _ _ (fun hh => d6 hh.symm)]
    apply errorTypeOf_ne_empty
    show ("BatchError" : String) ≠ ""
    decide
  · rw [getCol_populateError_raw]
    exact mkBatchError_args_ne_empty _

/-- C7, witness: a concrete batch unit whose parser marks a row-level
error. -/
theorem claim_C7_witness :
    ∃ out,
      applyFunctionAndParseResponse examplePBatchErr
        (getUniqueOutputColumnNames examplePBatchErr.output_column_pre ["id"])
        none (some exampleB2) = Except.ok (UnitOut.batchOut out) ∧
      out.length = (exampleParseRowErr exampleB2 "resp"
        (getUniqueOutputColumnNames examplePBatchErr.output_column_pre ["id"])).length ∧
      ∀ r ∈ out,
        getCol r (getUniqueOutputColumnNames
          examplePBatchErr.output_column_pre ["id"]).error_message ≠ "" ∧
        getCol r (getUniqueOutputColumnNames
          examplePBatchErr.output_column_pre ["id"]).error_type ≠ "" ∧
        getCol r (getUniqueOutputColumnNames
          examplePBatchErr.output_column_pre ["id"]).error_raw ≠ "" :=
  claim_C7 examplePBatchErr ["id"] exampleB2 exampleParseRowErr "resp" rfl rfl rfl
    (by decide)

/-- C3: in fail mode, if the user function raises a caught exception on some
submitted unit, the run produces no output table: the caller observes a
propagated exception instead of a partial augmented table. -/
theorem claim_C3 (p : DataFrameParallelizer) (df : Table) (sched : List Nat)
    (u : Option Row × Option Batch) (e : PyError)
    (hmode : p.error_handling = ErrorHandling.FAIL)
    (hsched : List.Perm sched (List.range (mkUnits p df.rows).length))
    (hu : u ∈ mkUnits p df.rows)
    (hfail : unitCall p u = Except.error e)
    (hcaught : e.qualname ∈ p.exceptions_to_catch)
    (hrowne : ∀ r, u.1 = some r → r ≠ []) :
    ∃ e2, run p df sched = Except.error e2 := by
  by_cases hz : p.batch_support = true ∧ p.batch_size = 0
  · unfold run
    rw [if_pos hz]
    exact ⟨_, rfl⟩
  · obtain ⟨j, hj, hju⟩ := List.mem_iff_getElem.mp hu
    have hjmem : j ∈ sched := hsched.mem_iff.mpr (List.mem_range.mpr hj)
    cases hbs : p.batch_support
    · -- row mode
      have hu2 : u ∈ df.rows.map (fun r => ((some r : Option Row), (none : Option Batch))) := by
        rw [mkUnits, hbs] at hu
        simpa using hu
      obtain ⟨r, hrmem, hru⟩ := List.mem_map.mp hu2
      have hrne : r ≠ [] := hrowne r (by rw [← hru])
      have hcall : p.function (Sum.inl r) = Except.error e := by
        rw [← hfail, ← hru]
        rfl
      have hwrap := apply_row_err_raise p
        (getUniqueOutputColumnNames p.output_column_pre df.cols) hrne hcall (Or.inr hmode)
      have hgetD : ((mkUnits p df.rows).map (fun v =>
          applyFunctionAndParseResponse p
            (getUniqueOutputColumnNames p.output_column_pre df.cols) v.1 v.2)).getD j
          (Except.error scheduleError) = Except.error e := by
        rw [getD_map_lt _ _ hj (none, none) _, List.getD_eq_getElem _ _ hj, hju, ← hru]
        exact hwrap
      obtain ⟨e2, hcoll⟩ := collectResults_error_of_mem sched hjmem hgetD
      rw [run_row_eq p df sched hbs]
      unfold runResults
      rw [hcoll]
      exact ⟨e2, rfl⟩
    · -- batch mode
      have hsz : p.batch_size ≠ 0 := fun h0 => hz ⟨hbs, h0⟩
      have hu2 : u ∈ (chunked p.batch_size df.rows).map
          (fun b => ((none : Option Row), (some b : Option Batch))) := by
        rw [mkUnits, hbs] at hu
        simpa using hu
      obtain ⟨b, hbmem, hbu⟩ := List.mem_map.mp hu2
      have hcall : p.function (Sum.inr b) = Except.error e := by
        rw [← hfail, ← hbu]
        rfl
      have hwrap := apply_batch_fn_err_raise p
        (getUniqueOutputColumnNames p.output_column_pre df.cols) b hcall (Or.inr hmode)
      have hgetD : ((mkUnits p df.rows).map (fun v =>
          applyFunctionAndParseResponse p
            (getUniqueOutputColumnNames p.output_column_pre df.cols) v.1 v.2)).getD j
          (Except.error scheduleError) = Except.error e := by
        rw [getD_map_lt _ _ hj (none, none) _, List.getD_eq_getElem _ _ hj, hju, ← hbu]
        exact hwrap
      obtain ⟨e2, hcoll⟩ := collectResults_error_of_mem sched hjmem hgetD
      rw [run_batch_eq p df sched hbs hsz]
      unfold runResults
      rw [hcoll]
      exact ⟨e2, rfl⟩

/-- C3, witness: the fail-mode run on the example table aborts. -/
theorem claim_C3_witness : ∃ e2, run examplePFail exampleDf [2, 0, 1] = Except.error e2 :=
  claim_C3 examplePFail exampleDf [2, 0, 1] (some [("id", "2")], none) exampleValueError
    rfl (by decide) (by decide) rfl (by decide)
    (by
      intro r hr
      injection hr with h2
      subst h2
      decide)

/-- C2: whenever `run` returns a table — in row mode or batch mode, for any
batch size — it has exactly as many rows as the input table: batch-mode
flattening neither drops nor duplicates rows.  The batch response parser is
assumed to honour its documented contract of returning one parsed row per
batch row. -/
theorem claim_C2 (p : DataFrameParallelizer) (df : Table) (sched : List Nat) (t : Table)
    (hsched : List.Perm sched (List.range (mkUnits p df.rows).length))
    (hparse : ∀ parse, p.batch_response_parse_fn = some parse →
      ∀ b resp ocn2, (parse b resp ocn2).length = b.length)
    (hrun : run p df sched = Except.ok t) :
    t.rows.length = df.rows.length := by
  cases hbs : p.batch_support
  · -- row mode
    rw [run_row_eq p df sched hbs] at hrun
    cases hrr : runResults p (getUniqueOutputColumnNames p.output_column_pre df.cols)
        df.rows sched with
    | error e => rw [hrr] at hrun; exact absurd hrun (by simp)
    | ok rs =>
      rw [hrr] at hrun
      injection hrun with ht
      subst ht
      rw [convertResultsToDf_rows]
      simp only [List.length_map]
      unfold runResults at hrr
      have hmap := collectResults_ok_map hrr
      rw [hmap, List.length_map, hsched.length_eq, List.length_range,
        mkUnits_length_row p df.rows hbs]
  · -- batch mode
    have hsz : p.batch_size ≠ 0 := by
      intro h0
      unfold run at hrun
      rw [if_pos ⟨hbs, h0⟩] at hrun
      exact absurd hrun (by simp)
    rw [run_batch_eq p df sched hbs hsz] at hrun
    cases hrr : runResults p (getUniqueOutputColumnNames p.output_column_pre df.cols)
        df.rows sched with
    | error e => rw [hrr] at hrun; exact absurd hrun (by simp)
    | ok rs =>
      rw [hrr] at hrun
      injection hrun with ht
      subst ht
      rw [convertResultsToDf_rows]
      simp only [List.length_map]
      rw [List.length_flatten, List.map_map]
      unfold runResults at hrr
      have hf2 := collectResults_ok_forall2 hrr
      have hmapeq : sched.map (fun i => ((chunked p.batch_size df.rows).getD i []).length) =
          rs.map (List.length ∘ asBatch) := by
        apply forall2_map_eq hf2
        intro i v hi hR
        have hilt : i < (chunked p.batch_size df.rows).length := by
          have h3 := List.mem_range.mp (hsched.mem_iff.mp hi)
          rwa [mkUnits_length_batch p df.rows hbs] at h3
        rw [unitResults_batch_getD p _ df.rows hbs hilt] at hR
        have hl := apply_batch_ok_length p
          (getUniqueOutputColumnNames p.output_column_pre df.cols)
          (fun parse hp resp => hparse parse hp _ resp _) hR
        simpa [Function.comp] using hl.symm
      rw [← hmapeq]
      have hperm2 := (hsched.map
        (fun i => ((chunked p.batch_size df.rows).getD i []).length)).sum_eq
      rw [hperm2, mkUnits_length_batch p df.rows hbs]
      have hback : (List.range (chunked p.batch_size df.rows).length).map
          (fun i => ((chunked p.batch_size df.rows).getD i []).length) =
          (chunked p.batch_size df.rows).map List.length := by
        rw [show (fun i => ((chunked p.batch_size df.rows).getD i []).length) =
          (List.length ∘ fun i => (chunked p.batch_size df.rows).getD i []) from rfl]
        rw [← List.map_map, map_getD_range]
      rw [hback, ← List.length_flatten,
        chunked_flatten p.batch_size (Nat.pos_of_ne_zero hsz)]

/-- C2, witness: the batch-mode example run keeps all 3 rows. -/
theorem claim_C2_witness : exampleBatchOut10.rows.length = exampleDf.rows.length :=
  claim_C2 examplePBatch exampleDf [1, 0] exampleBatchOut10 (by decide)
    (by
      intro parse hp b resp ocn2
      rw [show examplePBatch.batch_response_parse_fn = some exampleParse from rfl] at hp
      injection hp with hp2
      subst hp2
      simp [exampleParse])
    (by decide)

/-- C9 counterexample: same configuration, same input table, deterministic
user function, log mode — yet two thread schedules (completion orders)
produce different output tables, because rows are collected in completion
order.  This refutes "identical output tables regardless of thread
scheduling". -/
theorem claim_C9_counterexample :
    run examplePRow exampleDf [0, 1, 2] ≠ run examplePRow exampleDf [2, 0, 1] := by decide

/-- C9 amended: two runs with the same configuration and a deterministic
user function produce tables with identical column lists and the same rows
up to order; the row order itself follows the completion order of the
units, so it may differ across schedules (and coincides when the
completion orders coincide). -/
theorem claim_C9_amended (p : DataFrameParallelizer) (df : Table)
    (sched1 sched2 : List Nat) (t1 t2 : Table)
    (h1 : List.Perm sched1 (List.range (mkUnits p df.rows).length))
    (h2 : List.Perm sched2 (List.range (mkUnits p df.rows).length))
    (hrun1 : run p df sched1 = Except.ok t1)
    (hrun2 : run p df sched2 = Except.ok t2) :
    t1.cols = t2.cols ∧ List.Perm t1.rows t2.rows := by
  have hperm12 : List.Perm sched1 sched2 := h1.trans h2.symm
  cases hbs : p.batch_support
  · rw [run_row_eq p df sched1 hbs] at hrun1
    rw [run_row_eq p df sched2 hbs] at hrun2
    cases hrr1 : runResults p (getUniqueOutputColumnNames p.output_column_pre df.cols)
        df.rows sched1 with
    | error e => rw [hrr1] at hrun1; exact absurd hrun1 (by simp)
    | ok rs1 =>
      rw [hrr1] at hrun1
      cases hrr2 : runResults p (getUniqueOutputColumnNames p.output_column_pre df.cols)
          df.rows sched2 with
      | error e => rw [hrr2] at hrun2; exact absurd hrun2 (by simp)
      | ok rs2 =>
        rw [hrr2] at hrun2
        injection hrun1 with ht1
        injection hrun2 with ht2
        subst ht1
        subst ht2
        unfold runResults at hrr1 hrr2
        have hrs : List.Perm rs1 rs2 := by
          rw [collectResults_ok_map hrr1, collectResults_ok_map hrr2]
          exact hperm12.map _
        constructor
        · exact convertResultsToDf_cols_indep p df _ _ _
        · rw [convertResultsToDf_rows, convertResultsToDf_rows]
          exact ((hrs.map asRow).map _)
  · have hsz : p.batch_size ≠ 0 := by
      intro h0
      unfold run at hrun1
      rw [if_pos ⟨hbs, h0⟩] at hrun1
      exact absurd hrun1 (by simp)
    rw [run_batch_eq p df sched1 hbs hsz] at hrun1
    rw [run_batch_eq p df sched2 hbs hsz] at hrun2
    cases hrr1 : runResults p (getUniqueOutputColumnNames p.output_column_pre df.cols)
        df.rows sched1 with
    | error e => rw [hrr1] at hrun1; exact absurd hrun1 (by simp)
    | ok rs1 =>
      rw [hrr1] at hrun1
      cases hrr2 : runResults p (getUniqueOutputColumnNames p.output_column_pre df.cols)
          df.rows sched2 with
      | error e => rw [hrr2] at hrun2; exact absurd hrun2 (by simp)
      | ok rs2 =>
        rw [hrr2] at hrun2
        injection hrun1 with ht1
        injection hrun2 with ht2
        subst ht1
        subst ht2
        unfold runResults at hrr1 hrr2
        have hrs : List.Perm rs1 rs2 := by
          rw [collectResults_ok_map hrr1, collectResults_ok_map hrr2]
          exact hperm12.map _
        constructor
        · exact convertResultsToDf_cols_indep p df _ _ _
        · rw [convertResultsToDf_rows, convertResultsToDf_rows]
          exact (((hrs.map asBatch).flatten).map _)

/-- C9 amended, witness: the two example schedules yield the same columns
and the same rows up to order. -/
theorem claim_C9_witness :
    exampleRowOut012.cols = exampleRowOut201.cols ∧
    List.Perm exampleRowOut012.rows exampleRowOut201.rows :=
  claim_C9_amended examplePRow exampleDf [0, 1, 2] [2, 0, 1]
    exampleRowOut012 exampleRowOut201 (by decide) (by decide) (by decide) (by decide)

/-! ### Helper lemmas for order preservation -/

theorem forall2_exists_left {α β : Type _} {R : α → β → Prop} :
    ∀ {l1 : List α} {l2 : List β}, List.Forall₂ R l1 l2 → ∀ a ∈ l1, ∃ b, R a b := by
  intro l1 l2 h
  induction h with
  | nil => intro a ha; simp at ha
  | cons hab htail ih =>
    intro a ha
    rcases List.mem_cons.mp ha with h1 | h1
    · exact ⟨_, h1 ▸ hab⟩
    · exact ih a h1

theorem errorHandling_log_of_ne (p : DataFrameParallelizer)
    (h : ¬(p.error_handling = ErrorHandling.FAIL)) :
    p.error_handling = ErrorHandling.LOG := by
  cases hm : p.error_handling
  · rfl
  · exact absurd hm h

theorem reindexRow_keys (r : Row) (hnd : (r.map Prod.fst).Nodup) :
    reindexRow (r.map Prod.fst) r = r := by
  induction r with
  | nil => rfl
  | cons kv rest ih =>
    obtain ⟨a, v⟩ := kv
    rw [List.map_cons] at hnd
    obtain ⟨ha, hrest⟩ := List.nodup_cons.mp hnd
    show reindexRow (a :: rest.map Prod.fst) ((a, v) :: rest) = (a, v) :: rest
    unfold reindexRow
    rw [List.map_cons]
    congr 1
    · simp [getCol]
    · have hcong : ∀ c ∈ rest.map Prod.fst,
          (c, getCol ((a, v) :: rest) c) = (c, getCol rest c) := by
        intro c hc
        have hca : ¬(a = c) := fun hh => ha (hh ▸ hc)
        simp [getCol, hca]
      rw [List.map_congr_left hcong]
      exact ih hrest

theorem reindexRow_self (cols : List String) (r : Row) (hk : r.map Prod.fst = cols)
    (hnd : cols.Nodup) : reindexRow cols r = r := by
  subst hk
  exact reindexRow_keys r hnd

/-- C4 amended: output rows follow unit completion order (with intra-unit
order preserved), so the original input order is restored exactly when the
units complete in submission order: under the submission-order schedule the
output rows, restricted to the input columns, are the input rows in their
original order — in row mode and in batch mode (where the parser honours
its contract of returning the batch's rows with only output columns
touched). -/
theorem claim_C4_amended (p : DataFrameParallelizer) (df : Table) (t : Table)
    (hnodup : df.cols.Nodup)
    (hkeys : ∀ r ∈ df.rows, r.map Prod.fst = df.cols)
    (hne : p.batch_support = false → ∀ r ∈ df.rows, r ≠ [])
    (hparse : p.batch_support = true → ∀ parse, p.batch_response_parse_fn = some parse →
      ∀ b resp,
        (parse b resp (getUniqueOutputColumnNames p.output_column_pre df.cols)).length =
          b.length ∧
        ∀ j c, c ∈ df.cols →
          getCol ((parse b resp
            (getUniqueOutputColumnNames p.output_column_pre df.cols)).getD j []) c =
          getCol (b.getD j []) c)
    (hrun : run p df (List.range (mkUnits p df.rows).length) = Except.ok t) :
    t.rows.map (fun r => reindexRow df.cols r) = df.rows := by
  have hfresh := getUniqueOutputColumnNames_fresh p.output_column_pre df.cols
  set ocn := getUniqueOutputColumnNames p.output_column_pre df.cols with hocndef
  have hnotocn : ∀ c ∈ df.cols, ¬(c ∈ ocnList ocn) := by
    intro c hc hmem
    obtain ⟨hf1, hf2, hf3, hf4⟩ := hfresh
    simp only [ocnList, List.mem_cons, List.not_mem_nil, or_false] at hmem
    rcases hmem with h | h | h | h <;> subst h
    · exact hf1 hc
    · exact hf2 hc
    · exact hf3 hc
    · exact hf4 hc
  have hrowdone : ∀ (X r2 : Row), r2 ∈ df.rows → (∀ c ∈ df.cols, getCol X c = getCol r2 c) →
      reindexRow df.cols (postRow p df.cols ocn X) = r2 := by
    intro X r2 hr2 hXr
    have h1 : ∀ c ∈ df.cols,
        (fun c => (c, getCol (postRow p df.cols ocn X) c)) c =
        (fun c => (c, getCol r2 c)) c := by
      intro c hc
      simp only
      rw [getCol_postRow_inputcol p df.cols ocn X hc (hnotocn c hc), hXr c hc]
    show List.map (fun c => (c, getCol (postRow p df.cols ocn X) c)) df.cols = r2
    rw [List.map_congr_left h1]
    exact reindexRow_self df.cols r2 (hkeys r2 hr2) hnodup
  have hinit : ∀ (r2 : Row) (c : String), c ∈ df.cols →
      getCol (initOutputCols r2 ocn) c = getCol r2 c := fun r2 c hc =>
    getCol_initOutputCols_not_mem r2 ocn (hnotocn c hc)
  have hpop : ∀ (r2 : Row) (e : PyError) (c : String), c ∈ df.cols →
      getCol (populateError r2 ocn e) c = getCol r2 c := by
    intro r2 e c hc
    have hm := hnotocn c hc
    simp only [ocnList, List.mem_cons, List.not_mem_nil, or_false, not_or] at hm
    exact getCol_populateError_other r2 ocn e (fun hh => hm.2.1 hh.symm)
      (fun hh => hm.2.2.1 hh.symm) (fun hh => hm.2.2.2 hh.symm)
  have hsetresp : ∀ (r2 : Row) (v c : String), c ∈ df.cols →
      getCol (setCol r2 ocn.response v) c = getCol r2 c := by
    intro r2 v c hc
    have hm := hnotocn c hc
    simp only [ocnList, List.mem_cons, List.not_mem_nil, or_false, not_or] at hm
    exact getCol_setCol_ne r2 (fun hh => hm.1 hh.symm) v
  have hchunkdone : ∀ (L b2 : Batch), (∀ x ∈ b2, x ∈ df.rows) → L.length = b2.length →
      (∀ j, j < b2.length → ∀ c ∈ df.cols, getCol (L.getD j []) c = getCol (b2.getD j []) c) →
      L.map (fun X => reindexRow df.cols (postRow p df.cols ocn X)) = b2 := by
    intro L b2 hsub hlen hvals
    apply List.ext_getElem (by simpa using hlen)
    intro j h1 h2
    rw [List.getElem_map]
    have hLj : j < L.length := by simpa using h1
    refine hrowdone (L[j]) (b2[j]) (hsub _ (List.getElem_mem h2)) ?_
    intro c hc
    have hv := hvals j h2 c hc
    rwa [List.getD_eq_getElem L [] hLj, List.getD_eq_getElem b2 [] h2] at hv
  cases hbs : p.batch_support
  · -- row mode
    rw [run_row_eq p df _ hbs] at hrun
    cases hrr : runResults p ocn df.rows (List.range (mkUnits p df.rows).length) with
    | error e => rw [hrr] at hrun; exact absurd hrun (by simp)
    | ok rs =>
      rw [hrr] at hrun
      injection hrun with ht
      subst ht
      rw [convertResultsToDf_rows, List.map_map, List.map_map]
      unfold runResults at hrr
      have hf2 := collectResults_ok_forall2 hrr
      have hmap := collectResults_ok_map hrr
      subst hmap
      rw [List.map_map]
      have hN : (mkUnits p df.rows).length = df.rows.length := mkUnits_length_row p df.rows hbs
      rw [hN]
      conv_rhs => rw [← map_getD_range ([] : Row) df.rows]
      apply List.map_congr_left
      intro i hi
      simp only [Function.comp_def]
      have hilt : i < df.rows.length := List.mem_range.mp hi
      have hr2mem : df.rows.getD i [] ∈ df.rows := by
        rw [List.getD_eq_getElem _ _ hilt]
        exact List.getElem_mem hilt
      have hrne2 : df.rows.getD i [] ≠ [] := hne hbs _ hr2mem
      have hgd := unitResults_row_getD p ocn df.rows hbs hilt
      obtain ⟨u, hu⟩ := forall2_exists_left hf2 i
        (List.mem_range.mpr (by rw [hN]; exact hilt))
      rw [hgd] at hu
      rw [hgd, hu]
      simp only [extractOk]
      cases hfc : p.function (Sum.inl (df.rows.getD i [])) with
      | ok resp =>
        have hw := apply_row_ok p ocn hrne2 hfc
        rw [hw] at hu
        injection hu with hu2
        subst hu2
        simp only [asRow]
        refine hrowdone _ _ hr2mem ?_
        intro c hc
        rw [hsetresp _ _ _ hc, hinit _ _ hc]
      | error e =>
        by_cases hcc : isCaught p e
        · by_cases hfl : p.error_handling = ErrorHandling.FAIL
          · have hw := apply_row_err_raise p ocn hrne2 hfc (Or.inr hfl)
            rw [hw] at hu
            exact absurd hu (by simp)
          · have hw := apply_row_err_log p ocn hrne2 hfc hcc (errorHandling_log_of_ne p hfl)
            rw [hw] at hu
            injection hu with hu2
            subst hu2
            simp only [asRow]
            refine hrowdone _ _ hr2mem ?_
            intro c hc
            rw [hpop _ _ _ hc, hinit _ _ hc]
        · have hw := apply_row_err_raise p ocn hrne2 hfc (Or.inl (by simpa using hcc))
          rw [hw] at hu
          exact absurd hu (by simp)
  · -- batch mode
    have hsz : p.batch_size ≠ 0 := by
      intro h0
      unfold run at hrun
      rw [if_pos ⟨hbs, h0⟩] at hrun
      exact absurd hrun (by simp)
    rw [run_batch_eq p df _ hbs hsz] at hrun
    cases hrr : runResults p ocn df.rows (List.range (mkUnits p df.rows).length) with
    | error e => rw [hrr] at hrun; exact absurd hrun (by simp)
    | ok rs =>
      rw [hrr] at hrun
      injection hrun with ht
      subst ht
      rw [convertResultsToDf_rows, List.map_map, List.map_flatten, List.map_map]
      unfold runResults at hrr
      have hf2 := collectResults_ok_forall2 hrr
      have hmap := collectResults_ok_map hrr
      subst hmap
      rw [List.map_map]
      have hK : (mkUnits p df.rows).length = (chunked p.batch_size df.rows).length :=
        mkUnits_length_batch p df.rows hbs
      rw [hK]
      conv_rhs => rw [← chunked_flatten p.batch_size (Nat.pos_of_ne_zero hsz) df.rows]
      refine congrArg List.flatten ?_
      conv_rhs => rw [← map_getD_range ([] : Batch) (chunked p.batch_size df.rows)]
      apply List.map_congr_left
      intro i hi
      simp only [Function.comp_def]
      have hilt : i < (chunked p.batch_size df.rows).length := List.mem_range.mp hi
      have hbmem : (chunked p.batch_size df.rows).getD i [] ∈ chunked p.batch_size df.rows := by
        rw [List.getD_eq_getElem _ _ hilt]
        exact List.getElem_mem hilt
      have hbsub : ∀ x ∈ (chunked p.batch_size df.rows).getD i [], x ∈ df.rows := by
        intro x hx
        have hxf : x ∈ (chunked p.batch_size df.rows).flatten :=
          List.mem_flatten.mpr ⟨_, hbmem, hx⟩
        rwa [chunked_flatten _ (Nat.pos_of_ne_zero hsz)] at hxf
      have hgd := unitResults_batch_getD p ocn df.rows hbs hilt
      obtain ⟨u, hu⟩ := forall2_exists_left hf2 i
        (List.mem_range.mpr (by rw [hK]; exact hilt))
      rw [hgd] at hu
      rw [hgd, hu]
      simp only [extractOk]
      rcases apply_batch_cases p ocn ((chunked p.batch_size df.rows).getD i []) with
        ⟨e, he⟩ | ⟨e, he⟩ | ⟨parse, resp, hp, he | ⟨e, he⟩⟩
      · rw [he] at hu
        exact absurd hu (by simp)
      · rw [he] at hu
        injection hu with hu2
        subst hu2
        simp only [asBatch]
        apply hchunkdone _ _ hbsub (by simp)
        intro j hj c hc
        rw [getD_map_lt _ _ (by simpa using hj) [] _, getD_map_lt _ _ (by simpa using hj) [] _]
        rw [hpop _ _ _ hc, hinit _ _ hc]
      · rw [he] at hu
        injection hu with hu2
        subst hu2
        simp only [asBatch]
        obtain ⟨hlenp, hvalp⟩ :=
          hparse hbs parse hp ((chunked p.batch_size df.rows).getD i []) resp
        apply hchunkdone _ _ hbsub hlenp
        intro j hj c hc
        exact hvalp j c hc
      · rw [he] at hu
        injection hu with hu2
        subst hu2
        simp only [asBatch]
        obtain ⟨hlenp, hvalp⟩ :=
          hparse hbs parse hp ((chunked p.batch_size df.rows).getD i []) resp
        apply hchunkdone _ _ hbsub (by rw [List.length_map]; exact hlenp)
        intro j hj c hc
        rw [getD_map_lt _ _ (by rw [hlenp]; exact hj) [] _, hpop _ _ _ hc]
        exact hvalp j c hc

/-- C4 counterexample: batch mode with batch size 2 on the 3-row example
table does form 2 units of sizes 2 and 1, but under completion order
`[1, 0]` the output rows appear as 3, 1, 2 — not in the input order
1, 2, 3: the assembler keeps completion order, refuting the claim that the
output rows always appear in the order of the corresponding input rows. -/
theorem claim_C4_counterexample :
    run examplePBatch exampleDf [1, 0] = Except.ok exampleBatchOut10 ∧
    (chunked 2 exampleDf.rows).map List.length = [2, 1] ∧
    exampleBatchOut10.rows.map (fun r => getCol r "id") = ["3", "1", "2"] ∧
    exampleDf.rows.map (fun r => getCol r "id") = ["1", "2", "3"] := by decide

/-- C4 amended, witness: batch size 2 on 3 rows under the submission-order
schedule restores the 3 input rows in original order. -/
theorem claim_C4_witness :
    exampleBatchOut01.rows.map (fun r => reindexRow exampleDf.cols r) = exampleDf.rows :=
  claim_C4_amended examplePBatch exampleDf exampleBatchOut01 (by decide) (by decide)
    (by intro h; exact absurd h (by decide))
    (by
      intro _ parse hp b resp
      rw [show examplePBatch.batch_response_parse_fn = some exampleParse from rfl] at hp
      injection hp with hp2
      subst hp2
      constructor
      · simp [exampleParse]
      · intro j c hc
        have hc2 : c = "id" := by simpa [exampleDf] using hc
        subst hc2
        by_cases hj : j < b.length
        · show getCol ((b.map (fun r => setCol r
            (getUniqueOutputColumnNames examplePBatch.output_column_pre
              exampleDf.cols).response resp)).getD j []) "id" = getCol (b.getD j []) "id"
          rw [getD_map_lt _ b hj [] []]
          exact getCol_setCol_ne _ (by decide) _
        · have hge : b.length ≤ j := Nat.le_of_not_lt hj
          show getCol ((b.map (fun r => setCol r
            (getUniqueOutputColumnNames examplePBatch.output_column_pre
              exampleDf.cols).response resp)).getD j []) "id" = getCol (b.getD j []) "id"
          rw [getD_ge _ (by simpa using hge) [], getD_ge _ hge []])
    (by decide)

/-- C1: in log mode on a table of N rows (N > 1), if the user function
raises a caught exception on exactly one row and succeeds with a non-empty
response on the others, the output table has N rows, of which exactly one
has an empty response with populated error_message/error_type fields and
the other N − 1 have populated responses with empty error fields —
whatever the completion order of the workers. -/
theorem claim_C1 (p : DataFrameParallelizer) (cols : List String) (rows : Batch)
    (sched : List Nat) (i : Nat) (e : PyError) (respOf : Nat → String)
    (hbs : p.batch_support = false)
    (hmode : p.error_handling = ErrorHandling.LOG)
    (hN : 1 < rows.length)
    (hi : i < rows.length)
    (hne : ∀ r ∈ rows, r ≠ [])
    (hfail : p.function (Sum.inl (rows.getD i [])) = Except.error e)
    (hcaught : e.qualname ∈ p.exceptions_to_catch)
    (hmsg : e.message ≠ "")
    (hqn : e.qualname ≠ "")
    (hok : ∀ j, j < rows.length → ¬(j = i) →
      p.function (Sum.inl (rows.getD j [])) = Except.ok (respOf j) ∧ respOf j ≠ "")
    (hsched : List.Perm sched (List.range rows.length)) :
    ∃ t, run p ⟨cols, rows⟩ sched = Except.ok t ∧
      t.rows.length = rows.length ∧
      t.rows.countP (failedRowP (getUniqueOutputColumnNames p.output_column_pre cols)) = 1 ∧
      t.rows.countP (succRowP (getUniqueOutputColumnNames p.output_column_pre cols)) =
        rows.length - 1 := by
  obtain ⟨d1, d2, d3, d4, d5, d6⟩ :=
    getUniqueOutputColumnNames_distinct p.output_column_pre cols
  set ocn := getUniqueOutputColumnNames p.output_column_pre cols with hocndef
  have hmemrows : ∀ j, j < rows.length → rows.getD j [] ∈ rows := by
    intro j hj
    rw [List.getD_eq_getElem _ _ hj]
    exact List.getElem_mem hj
  have hwrap : ∀ j, j < rows.length →
      applyFunctionAndParseResponse p ocn (some (rows.getD j [])) none =
        Except.ok (UnitOut.rowOut (if j = i then
          populateError (initOutputCols (rows.getD j []) ocn) ocn e
          else setCol (initOutputCols (rows.getD j []) ocn) ocn.response (respOf j))) := by
    intro j hj
    have hrne : rows.getD j [] ≠ [] := hne _ (hmemrows j hj)
    by_cases hji : j = i
    · subst hji
      rw [if_pos rfl]
      exact apply_row_err_log p ocn hrne hfail (by simp [isCaught, hcaught]) hmode
    · rw [if_neg hji]
      exact apply_row_ok p ocn hrne (hok j hj hji).1
  have hjlt : ∀ j ∈ sched, j < rows.length := fun j hj =>
    List.mem_range.mp (hsched.mem_iff.mp hj)
  obtain ⟨rs, hrs⟩ := @collectResults_ok_of_forall
    ((mkUnits p rows).map (fun u => applyFunctionAndParseResponse p ocn u.1 u.2))
    sched
    (fun j hj => ⟨_, by
      rw [unitResults_row_getD p ocn rows hbs (hjlt j hj)]
      exact hwrap j (hjlt j hj)⟩)
  have hrsmap := collectResults_ok_map hrs
  -- row-level facts about the two possible unit results
  have hpostfail1 : failedRowP ocn (postRow p cols ocn
      (populateError (initOutputCols (rows.getD i []) ocn) ocn e)) = true := by
    unfold failedRowP
    rw [getCol_postRow_log p cols ocn _ hmode
        (List.mem_append_right _ (by simp [ocnList])) (fun hh => d3 hh),
      getCol_postRow_log p cols ocn _ hmode
        (List.mem_append_right _ (by simp [ocnList])) (fun hh => d5 hh),
      getCol_postRow_log p cols ocn _ hmode
        (List.mem_append_right _ (by simp [ocnList])) (fun hh => d6 hh)]
    rw [getCol_populateError_other _ _ _ (fun hh => d1 hh.symm) (fun hh => d2 hh.symm)
        (fun hh => d3 hh.symm),
      getCol_initOutputCols_mem _ _ (by simp [ocnList]),
      getCol_populateError_message _ _ _ (fun hh => d4 hh.symm) (fun hh => d5 hh.symm),
      getCol_populateError_type _ _ _ (fun hh => d6 hh.symm)]
    simp [bne_iff_ne, hmsg, errorTypeOf_ne_empty hqn]
  have hpostfail2 : succRowP ocn (postRow p cols ocn
      (populateError (initOutputCols (rows.getD i []) ocn) ocn e)) = false := by
    unfold succRowP
    rw [getCol_postRow_log p cols ocn _ hmode
        (List.mem_append_right _ (by simp [ocnList])) (fun hh => d3 hh)]
    rw [getCol_populateError_other _ _ _ (fun hh => d1 hh.symm) (fun hh => d2 hh.symm)
        (fun hh => d3 hh.symm),
      getCol_initOutputCols_mem _ _ (by simp [ocnList])]
    simp
  have hpostok : ∀ j, j < rows.length → ¬(j = i) →
      failedRowP ocn (postRow p cols ocn
        (setCol (initOutputCols (rows.getD j []) ocn) ocn.response (respOf j))) = false ∧
      succRowP ocn (postRow p cols ocn
        (setCol (initOutputCols (rows.getD j []) ocn) ocn.response (respOf j))) = true := by
    intro j hj hji
    have hresp : getCol (postRow p cols ocn
        (setCol (initOutputCols (rows.getD j []) ocn) ocn.response (respOf j)))
          ocn.response = respOf j := by
      rw [getCol_postRow_log p cols ocn _ hmode
          (List.mem_append_right _ (by simp [ocnList])) (fun hh => d3 hh),
        getCol_setCol_self]
    have hmsg2 : getCol (postRow p cols ocn
        (setCol (initOutputCols (rows.getD j []) ocn) ocn.response (respOf j)))
          ocn.error_message = "" := by
      rw [getCol_postRow_log p cols ocn _ hmode
          (List.mem_append_right _ (by simp [ocnList])) (fun hh => d5 hh),
        getCol_setCol_ne _ (fun hh => d1 hh) _,
        getCol_initOutputCols_mem _ _ (by simp [ocnList])]
    have htyp2 : getCol (postRow p cols ocn
        (setCol (initOutputCols (rows.getD j []) ocn) ocn.response (respOf j)))
          ocn.error_type = "" := by
      rw [getCol_postRow_log p cols ocn _ hmode
          (List.mem_append_right _ (by simp [ocnList])) (fun hh => d6 hh),
        getCol_setCol_ne _ (fun hh => d2 hh) _,
        getCol_initOutputCols_mem _ _ (by simp [ocnList])]
    constructor
    · unfold failedRowP
      rw [hresp, hmsg2]
      simp [(hok j hj hji).2]
    · unfold succRowP
      rw [hresp, hmsg2, htyp2]
      simp [bne_iff_ne, (hok j hj hji).2]
  refine ⟨convertResultsToDf p ⟨cols, rows⟩ (rs.map asRow) ocn, ?_, ?_, ?_, ?_⟩
  · rw [run_row_eq p ⟨cols, rows⟩ sched hbs]
    show (match collectResults ((mkUnits p rows).map
        (fun u => applyFunctionAndParseResponse p ocn u.1 u.2)) sched with
      | Except.error e => Except.error e
      | Except.ok rs => Except.ok (convertResultsToDf p ⟨cols, rows⟩ (rs.map asRow) ocn)) =
      Except.ok (convertResultsToDf p ⟨cols, rows⟩ (rs.map asRow) ocn)
    rw [hrs]
  · rw [convertResultsToDf_rows, List.length_map, List.length_map, hrsmap,
      List.length_map, hsched.length_eq, List.length_range]
  · -- exactly one failed row
    have htrows : (convertResultsToDf p ⟨cols, rows⟩ (rs.map asRow) ocn).rows =
        sched.map (fun j => postRow p cols ocn (asRow (extractOk
          (((mkUnits p rows).map (fun u => applyFunctionAndParseResponse p ocn u.1 u.2)).getD j
            (Except.error scheduleError))))) := by
      rw [convertResultsToDf_rows, hrsmap, List.map_map, List.map_map]
      rfl
    rw [htrows, List.countP_map, countP_eq_sum_map]
    refine Eq.trans (congrArg List.sum
      (@List.map_congr_left _ sched _ _ (fun j => if j = i then (1 : Nat) else 0) ?_)) ?_
    · intro j hj
      have hj2 := hjlt j hj
      have hval : failedRowP ocn (postRow p cols ocn (asRow (extractOk
          (((mkUnits p rows).map (fun u => applyFunctionAndParseResponse p ocn u.1 u.2)).getD j
            (Except.error scheduleError))))) = (if j = i then true else false) := by
        rw [unitResults_row_getD p ocn rows hbs hj2, hwrap j hj2]
        simp only [extractOk, asRow]
        by_cases hji : j = i
        · subst hji
          rw [if_pos rfl, if_pos rfl]
          exact hpostfail1
        · rw [if_neg hji, if_neg hji]
          exact (hpostok j hj2 hji).1
      simp only [Function.comp_def, hval]
      by_cases hji : j = i <;> simp [hji]
    · exact Eq.trans ((hsched.map _).sum_eq) (sum_range_indicator_eq i rows.length hi)
  · -- the other N − 1 rows succeeded
    have htrows : (convertResultsToDf p ⟨cols, rows⟩ (rs.map asRow) ocn).rows =
        sched.map (fun j => postRow p cols ocn (asRow (extractOk
          (((mkUnits p rows).map (fun u => applyFunctionAndParseResponse p ocn u.1 u.2)).getD j
            (Except.error scheduleError))))) := by
      rw [convertResultsToDf_rows, hrsmap, List.map_map, List.map_map]
      rfl
    rw [htrows, List.countP_map, countP_eq_sum_map]
    refine Eq.trans (congrArg List.sum
      (@List.map_congr_left _ sched _ _ (fun j => if j = i then (0 : Nat) else 1) ?_)) ?_
    · intro j hj
      have hj2 := hjlt j hj
      have hval : succRowP ocn (postRow p cols ocn (asRow (extractOk
          (((mkUnits p rows).map (fun u => applyFunctionAndParseResponse p ocn u.1 u.2)).getD j
            (Except.error scheduleError))))) = (if j = i then false else true) := by
        rw [unitResults_row_getD p ocn rows hbs hj2, hwrap j hj2]
        simp only [extractOk, asRow]
        by_cases hji : j = i
        · subst hji
          rw [if_pos rfl, if_pos rfl]
          exact hpostfail2
        · rw [if_neg hji, if_neg hji]
          exact (hpostok j hj2 hji).2
      simp only [Function.comp_def, hval]
      by_cases hji : j = i <;> simp [hji]
    · exact Eq.trans ((hsched.map _).sum_eq) (sum_range_indicator_ne i rows.length hi)

/-- C1, witness: the 3-row example with a failing middle row under a
permuted completion order. -/
theorem claim_C1_witness :
    ∃ t, run examplePRow ⟨["id"], [[("id", "1")], [("id", "2")], [("id", "3")]]⟩
        [2, 0, 1] = Except.ok t ∧
      t.rows.length = 3 ∧
      t.rows.countP (failedRowP
        (getUniqueOutputColumnNames examplePRow.output_column_pre ["id"])) = 1 ∧
      t.rows.countP (succRowP
        (getUniqueOutputColumnNames examplePRow.output_column_pre ["id"])) = 3 - 1 :=
  claim_C1 examplePRow ["id"] [[("id", "1")], [("id", "2")], [("id", "3")]] [2, 0, 1] 1
    exampleValueError
    (fun j => "ok-" ++ getCol ([[("id", "1")], [("id", "2")], [("id", "3")]].getD j []) "id")
    rfl rfl (by decide) (by decide) (by decide) (by decide) (by decide) (by decide)
    (by decide) (by decide) (by decide)
